import Mathlib

/-!
Shallow embedding of the `shrubbery` behaviour-tree engine
(crates/shrubbery/src): the status algebra, the control-node state
machines (`control_nodes.rs`), the standard decorators (`decorators.rs`),
the tree data model, validation and builder (`mod.rs`, `builder.rs`),
the structural-edit helpers (`manipulation.rs`) and the traversal engine
(`ControlTree::run_from_with_update_callback` and friends).

Modelling conventions:
* machine integers (`usize`) become `Nat`; node ids (`CTreeNodeID`) are `Nat`;
* `ahash::HashMap<CTreeNodeID, Vec<CTreeNodeID>>` becomes an association
  list `List (Nat × List Nat)` iterated in insertion order (the real hash
  map iterates in an unspecified order; where a claim depends on the order
  this is noted at the claim);
* `ahash::HashSet` becomes a `List Nat` with set-like insert/remove;
* Rust panics (`Vec` / `HashMap` indexing out of bounds, the
  `LeafNode::child_updated` panic) are modelled as error results;
* the unbounded `while` loop and the unbounded recursion of the cycle
  checker take an explicit fuel argument; running out of fuel is an
  outcome distinct from every genuine result of the code;
* the engine is instantiated at `D = StandardDecorator`
  (`StdControlTree = ControlTree<StandardDecorator>`), the instantiation
  every claim is about; `UpdateCallback` is the no-op `NoCallback`
  (callbacks take `&self` and cannot change the state).
-/

set_option maxHeartbeats 1000000

namespace Shrubbery

/-- Status of a node: lib.rs `enum Status`.  The Rust `#[derive(Default)]`
default is `Running`. -/
inductive Status where
  | Success
  | Failure
  | Running
  deriving DecidableEq, Repr

instance : Inhabited Status := ⟨Status.Running⟩

namespace Status

/-- lib.rs `Status::into_failure_if_running`. -/
def intoFailureIfRunning : Status → Status
  | .Running => .Failure
  | s => s

/-- lib.rs `Status::is_running`. -/
def isRunning : Status → Bool
  | .Running => true
  | _ => false

/-- lib.rs `Status::is_success`. -/
def isSuccess : Status → Bool
  | .Success => true
  | _ => false

/-- lib.rs `Status::is_failure`. -/
def isFailure : Status → Bool
  | .Failure => true
  | _ => false

/-- lib.rs `Status::is_terminal`: success or failure. -/
def isTerminal (s : Status) : Bool := s.isSuccess || s.isFailure

/-- lib.rs `impl Not for Status`: Success ↔ Failure, Running fixed. -/
def notS : Status → Status
  | .Success => .Failure
  | .Failure => .Success
  | .Running => .Running

end Status

/-- control/mod.rs `struct ChildUpdate`. -/
structure ChildUpdate where
  status : Status
  childId : Nat
  deriving DecidableEq, Repr

/-! ### Standard decorators (control/decorators.rs) -/

/-- decorators.rs `struct Subtree`: opaque pass-through marker. -/
structure Subtree where
  status : Option Status
  name : Option String
  deriving DecidableEq, Repr

namespace Subtree

def default : Subtree := ⟨none, none⟩

/-- decorators.rs `impl Decorator for Subtree`, `child_updated`. -/
def childUpdated (s : Subtree) (u : ChildUpdate) : Subtree × Status :=
  ({ s with status := some u.status }, u.status)

/-- decorators.rs `Subtree::status`. -/
def statusD (s : Subtree) : Status := s.status.getD .Running

/-- decorators.rs `Subtree::reset`. -/
def reset (s : Subtree) : Subtree := { s with status := none }

end Subtree

/-- decorators.rs `struct Inverter`. -/
structure Inverter where
  childStatus : Option Status
  deriving DecidableEq, Repr

namespace Inverter

def default : Inverter := ⟨none⟩

/-- decorators.rs `impl Decorator for Inverter`, `child_updated`:
caches the child status, returns its negation. -/
def childUpdated (_ : Inverter) (u : ChildUpdate) : Inverter × Status :=
  (⟨some u.status⟩, u.status.notS)

/-- decorators.rs `Inverter::status`: negation of the cached status. -/
def statusD (i : Inverter) : Status := (i.childStatus.getD .Running).notS

/-- decorators.rs `Inverter::reset`. -/
def reset (_ : Inverter) : Inverter := ⟨none⟩

end Inverter

/-- decorators.rs `struct Repeater`. -/
structure Repeater where
  initRetry : Nat
  retry : Nat
  status : Option Status
  resetRequest : Option Nat
  deriving DecidableEq, Repr

namespace Repeater

/-- decorators.rs `Repeater::new(retries)`: both counters start at
`retries + 1`. -/
def new (retries : Nat) : Repeater :=
  { initRetry := retries + 1, retry := retries + 1, status := none, resetRequest := none }

/-- decorators.rs `Repeater::can_retry`: `self.retry > 0`. -/
def canRetry (r : Repeater) : Bool := 0 < r.retry

/-- decorators.rs `impl Decorator for Repeater`, `child_updated`. -/
def childUpdated (r : Repeater) (u : ChildUpdate) : Repeater × Status :=
  if r.canRetry then
    match u.status with
    | .Success => ({ r with status := some .Success, resetRequest := none }, .Success)
    | .Failure =>
        ({ r with retry := r.retry - 1, status := some .Running,
                  resetRequest := some u.childId }, .Running)
    | .Running =>
        ({ r with status := some .Running, resetRequest := some u.childId }, .Running)
  else
    -- out of retries: whatever the update was, report Failure
    ({ r with status := some .Failure }, .Failure)

/-- decorators.rs `Repeater::status`. -/
def statusD (r : Repeater) : Status :=
  if r.canRetry then r.status.getD .Running else r.status.getD .Failure

/-- decorators.rs `Repeater::reset_request`: takes the stored id only
while retries remain. -/
def takeResetRequest (r : Repeater) : Repeater × Option Nat :=
  if r.canRetry then ({ r with resetRequest := none }, r.resetRequest) else (r, none)

/-- decorators.rs `Repeater::reset`. -/
def reset (r : Repeater) : Repeater :=
  { r with resetRequest := none, status := none, retry := r.initRetry }

end Repeater

/-- decorators.rs `enum StandardDecorator`. -/
inductive StandardDecorator where
  | Invert (i : Inverter)
  | Repeat (r : Repeater)
  | SubtreeD (s : Subtree)
  deriving DecidableEq, Repr

namespace StandardDecorator

/-- decorators.rs `StandardDecorator::subtree`. -/
def subtree : StandardDecorator := .SubtreeD Subtree.default

/-- decorators.rs `StandardDecorator::repeater(retries)`. -/
def repeater (retries : Nat) : StandardDecorator := .Repeat (Repeater.new retries)

/-- decorators.rs `StandardDecorator::inverter`. -/
def inverter : StandardDecorator := .Invert Inverter.default

/-- decorators.rs `impl Decorator for StandardDecorator`, `child_updated`. -/
def childUpdated : StandardDecorator → ChildUpdate → StandardDecorator × Status
  | .Invert i, u => let (i', s) := i.childUpdated u; (.Invert i', s)
  | .Repeat r, u => let (r', s) := r.childUpdated u; (.Repeat r', s)
  | .SubtreeD t, u => let (t', s) := t.childUpdated u; (.SubtreeD t', s)

/-- decorators.rs `StandardDecorator::status`. -/
def statusD : StandardDecorator → Status
  | .Invert i => i.statusD
  | .Repeat r => r.statusD
  | .SubtreeD t => t.statusD

/-- decorators.rs `StandardDecorator::reset`. -/
def reset : StandardDecorator → StandardDecorator
  | .Invert i => .Invert i.reset
  | .Repeat r => .Repeat r.reset
  | .SubtreeD t => .SubtreeD t.reset

/-- decorators.rs `StandardDecorator::reset_request` (only `Repeater`
overrides the trait default `None`). -/
def takeResetRequest : StandardDecorator → StandardDecorator × Option Nat
  | .Invert i => (.Invert i, none)
  | .Repeat r => let (r', o) := r.takeResetRequest; (.Repeat r', o)
  | .SubtreeD t => (.SubtreeD t, none)

end StandardDecorator

/-! ### Control-node state machines (control/control_nodes.rs) -/

/-- control_nodes.rs `struct Sequence`.  The `HashSet` of pending children
is modelled as a duplicate-free list. -/
structure Sequence where
  pending : List Nat
  failed : Option Nat
  status : Option Status
  finished : Bool
  deriving DecidableEq, Repr

namespace Sequence

def new : Sequence := ⟨[], none, none, false⟩

/-- control_nodes.rs `Sequence::reset`. -/
def reset (_ : Sequence) : Sequence := new

/-- control_nodes.rs `impl Control for Sequence`, `tick`. -/
def tick (s : Sequence) : Sequence × Status :=
  if s.failed.isSome then ({ s with status := some .Failure }, .Failure)
  else if s.finished then ({ s with status := some .Success }, .Success)
  else
    let s := if s.status = none then { s with status := some .Running } else s
    (s, s.status.getD .Running)

/-- control_nodes.rs `Sequence::child_updated`. -/
def childUpdated (s : Sequence) (u : ChildUpdate) : Sequence :=
  match u.status with
  | .Running =>
      { s with pending := if u.childId ∈ s.pending then s.pending else u.childId :: s.pending }
  | .Success => { s with pending := s.pending.filter (· ≠ u.childId) }
  | .Failure => { s with failed := some u.childId }

/-- control_nodes.rs `Sequence::all_children_seen`. -/
def allChildrenSeen (s : Sequence) : Sequence :=
  if s.pending.isEmpty then { s with finished := true } else s

end Sequence

/-- control_nodes.rs `struct Fallback`. -/
structure Fallback where
  status : Option Status
  deriving DecidableEq, Repr

namespace Fallback

def new : Fallback := ⟨none⟩

/-- control_nodes.rs `Fallback::reset`. -/
def reset (_ : Fallback) : Fallback := ⟨none⟩

/-- control_nodes.rs `impl Control for Fallback`, `tick`. -/
def tick (f : Fallback) : Fallback × Status := (f, f.status.getD .Running)

/-- control_nodes.rs `Fallback::child_updated`: only a Success update
changes the status. -/
def childUpdated (f : Fallback) (u : ChildUpdate) : Fallback :=
  if u.status.isSuccess then ⟨some .Success⟩ else f

/-- control_nodes.rs `Fallback::all_children_seen`:
`status.map(into_failure_if_running).or(Some(Failure))`. -/
def allChildrenSeen (f : Fallback) : Fallback :=
  ⟨(f.status.map Status.intoFailureIfRunning).or (some .Failure)⟩

end Fallback

/-- control_nodes.rs `struct Parallel`. -/
structure Parallel where
  success : List Nat
  failure : List Nat
  pending : List Nat
  finished : Bool
  deriving DecidableEq, Repr

namespace Parallel

def new : Parallel := ⟨[], [], [], false⟩

/-- control_nodes.rs `Parallel::reset`. -/
def reset (_ : Parallel) : Parallel := new

/-- control_nodes.rs `impl Control for Parallel`, `tick`. -/
def tick (p : Parallel) : Parallel × Status :=
  (p, if p.finished then (if p.failure.isEmpty then .Success else .Failure) else .Running)

/-- control_nodes.rs `Parallel::child_updated`. -/
def childUpdated (p : Parallel) (u : ChildUpdate) : Parallel :=
  match u.status with
  | .Success =>
      { p with pending := p.pending.filter (· ≠ u.childId),
               success := if u.childId ∈ p.success then p.success else u.childId :: p.success }
  | .Failure =>
      { p with pending := p.pending.filter (· ≠ u.childId),
               failure := if u.childId ∈ p.failure then p.failure else u.childId :: p.failure }
  | .Running =>
      { p with pending := if u.childId ∈ p.pending then p.pending else u.childId :: p.pending }

/-- control_nodes.rs `Parallel::all_children_seen`. -/
def allChildrenSeen (p : Parallel) : Parallel :=
  if p.pending.isEmpty then { p with finished := true } else p

end Parallel

/-- control_nodes.rs `enum ControlNodeType<D>`, at `D = StandardDecorator`. -/
inductive ControlNodeType where
  | Sequence (s : Sequence)
  | Fallback (f : Fallback)
  | Parallel (p : Parallel)
  | Decorator (d : StandardDecorator)
  deriving DecidableEq, Repr

/-- control_nodes.rs `struct ControlNode<D>`: variant payload, cached
status, id and the pending reset requests. -/
structure ControlNode where
  nodeType : ControlNodeType
  status : Option Status
  id : Option Nat
  resetRequests : List Nat
  deriving DecidableEq, Repr

namespace ControlNode

/-- control_nodes.rs `ControlNode::sequence`. -/
def sequence : ControlNode := ⟨.Sequence Sequence.new, none, none, []⟩

/-- control_nodes.rs `ControlNode::fallback`. -/
def fallback : ControlNode := ⟨.Fallback Fallback.new, none, none, []⟩

/-- control_nodes.rs `ControlNode::parallel`. -/
def parallel : ControlNode := ⟨.Parallel Parallel.new, none, none, []⟩

/-- control_nodes.rs `ControlNode::decorator`. -/
def decorator (d : StandardDecorator) : ControlNode := ⟨.Decorator d, none, none, []⟩

/-- control_nodes.rs `ControlNode::repeater(retries)`. -/
def repeater (retries : Nat) : ControlNode := decorator (.Repeat (Repeater.new retries))

/-- control_nodes.rs `ControlNode::reset`: resets the payload only (the
cached status and the queued reset requests of the wrapper are untouched
here; `CTreeNode::reset` clears the status separately). -/
def reset (c : ControlNode) : ControlNode :=
  { c with nodeType :=
      match c.nodeType with
      | .Sequence s => .Sequence s.reset
      | .Fallback f => .Fallback f.reset
      | .Parallel p => .Parallel p.reset
      | .Decorator d => .Decorator d.reset }

/-- control_nodes.rs `impl Control for ControlNode`, `tick`: seeds the
cached status with Running on first tick, dispatches, then caches the
result. -/
def tick (c : ControlNode) : ControlNode × Status :=
  let c := if c.status = none then { c with status := some .Running } else c
  match c.nodeType with
  | .Sequence s =>
      let (s', st) := s.tick
      ({ c with nodeType := .Sequence s', status := some st }, st)
  | .Fallback f =>
      let (f', st) := f.tick
      ({ c with nodeType := .Fallback f', status := some st }, st)
  | .Parallel p =>
      let (p', st) := p.tick
      ({ c with nodeType := .Parallel p', status := some st }, st)
  | .Decorator d =>
      let st := d.statusD
      ({ c with status := some st }, st)

/-- control_nodes.rs `ControlNode::child_updated`: dispatch the update
(a decorator's returned status becomes the cached status), then re-tick. -/
def childUpdated (c : ControlNode) (u : ChildUpdate) : ControlNode :=
  let c :=
    match c.nodeType with
    | .Sequence s => { c with nodeType := .Sequence (s.childUpdated u) }
    | .Fallback f => { c with nodeType := .Fallback (f.childUpdated u) }
    | .Parallel p => { c with nodeType := .Parallel (p.childUpdated u) }
    | .Decorator d =>
        let (d', st) := d.childUpdated u
        { c with nodeType := .Decorator d', status := some st }
  (c.tick).1

/-- control_nodes.rs `ControlNode::all_children_seen`: dispatch; for a
decorator, drain its reset request into the wrapper's queue. -/
def allChildrenSeen (c : ControlNode) : ControlNode :=
  match c.nodeType with
  | .Sequence s => { c with nodeType := .Sequence s.allChildrenSeen }
  | .Fallback f => { c with nodeType := .Fallback f.allChildrenSeen }
  | .Parallel p => { c with nodeType := .Parallel p.allChildrenSeen }
  | .Decorator d =>
      let (d', o) := d.takeResetRequest
      match o with
      | some rid => { c with nodeType := .Decorator d', resetRequests := c.resetRequests ++ [rid] }
      | none => { c with nodeType := .Decorator d' }

/-- control_nodes.rs `ControlNode::is_decorator`. -/
def isDecorator (c : ControlNode) : Bool :=
  match c.nodeType with
  | .Decorator _ => true
  | _ => false

end ControlNode

/-- control/mod.rs `enum LeafType`. -/
inductive LeafType where
  | Unknown
  | Conditional
  | Executor
  deriving DecidableEq, Repr

/-- control/mod.rs `struct LeafNode`. -/
structure LeafNode where
  id : Option Nat
  status : Option Status
  details : Option String
  name : Option String
  leafType : LeafType
  deriving DecidableEq, Repr

namespace LeafNode

def default : LeafNode := ⟨none, none, none, none, .Unknown⟩

/-- control/mod.rs `LeafNode::reset`. -/
def reset (l : LeafNode) : LeafNode := { l with status := none }

/-- control/mod.rs `impl Control for LeafNode`, `tick`: the cached status
or the default Running. -/
def tick (l : LeafNode) : LeafNode × Status := (l, l.status.getD .Running)

end LeafNode

/-- control/mod.rs `enum CTreeNode<D>`: the Root wrapper holds a
`ControlNode<StandardDecorator>` (`RootNode(pub ControlNode<StandardDecorator>)`),
which forwards every `Control` method to it. -/
inductive CTreeNode where
  | Root (r : ControlNode)
  | Control (c : ControlNode)
  | Leaf (l : LeafNode)
  deriving DecidableEq, Repr

namespace CTreeNode

/-- control/mod.rs `CTreeNode::root()`: a Root wrapping a fresh Sequence. -/
def root : CTreeNode := .Root ControlNode.sequence

/-- control/mod.rs `CTreeNode::is_leaf`. -/
def isLeaf : CTreeNode → Bool
  | .Leaf _ => true
  | _ => false

/-- control/mod.rs `CTreeNode::is_root`. -/
def isRoot : CTreeNode → Bool
  | .Root _ => true
  | _ => false

/-- control/mod.rs `CTreeNode::try_as_control` (only the Control variant,
never the Root wrapper). -/
def tryAsControl : CTreeNode → Option ControlNode
  | .Control c => some c
  | _ => none

/-- control/mod.rs `CTreeNode::id`. -/
def id : CTreeNode → Option Nat
  | .Root r => r.id
  | .Control c => c.id
  | .Leaf l => l.id

/-- control/mod.rs `CTreeNode::set_id` (the returned previous id is not
needed by the embedded operations). -/
def setId : CTreeNode → Nat → CTreeNode
  | .Root r, i => .Root { r with id := some i }
  | .Control c, i => .Control { c with id := some i }
  | .Leaf l, i => .Leaf { l with id := some i }

/-- control/mod.rs `CTreeNode::status`. -/
def status : CTreeNode → Option Status
  | .Root r => r.status
  | .Control c => c.status
  | .Leaf l => l.status

/-- control/mod.rs `CTreeNode::set_status`. -/
def setStatus : CTreeNode → Status → CTreeNode
  | .Root r, s => .Root { r with status := some s }
  | .Control c, s => .Control { c with status := some s }
  | .Leaf l, s => .Leaf { l with status := some s }

/-- control/mod.rs `CTreeNode::clear_status`. -/
def clearStatus : CTreeNode → CTreeNode
  | .Root r => .Root { r with status := none }
  | .Control c => .Control { c with status := none }
  | .Leaf l => .Leaf { l with status := none }

/-- control/mod.rs `CTreeNode::reset`: clear the cached status, then reset
the variant payload. -/
def reset (n : CTreeNode) : CTreeNode :=
  match n.clearStatus with
  | .Root r => .Root r.reset
  | .Control c => .Control c.reset
  | .Leaf l => .Leaf l.reset

/-- control/mod.rs `impl Control for CTreeNode`, `tick`: dispatch to the
variant (the Root forwards to its inner control node), then cache the
returned status with `set_status`. -/
def tick (n : CTreeNode) : CTreeNode × Status :=
  match n with
  | .Root r => let (r', st) := r.tick; ((CTreeNode.Root r').setStatus st, st)
  | .Control c => let (c', st) := c.tick; ((CTreeNode.Control c').setStatus st, st)
  | .Leaf l => let (l', st) := l.tick; ((CTreeNode.Leaf l').setStatus st, st)

/-- control/mod.rs `impl Control for CTreeNode`, `child_updated`.
`LeafNode::child_updated` panics ("Leaf nodes should not have children");
the panic is modelled as `none`. -/
def childUpdated : CTreeNode → ChildUpdate → Option CTreeNode
  | .Root r, u => some (.Root (r.childUpdated u))
  | .Control c, u => some (.Control (c.childUpdated u))
  | .Leaf _, _ => none

/-- control/mod.rs `impl Control for CTreeNode`, `all_children_seen`
(a leaf uses the trait's no-op default). -/
def allChildrenSeen : CTreeNode → CTreeNode
  | .Root r => .Root r.allChildrenSeen
  | .Control c => .Control c.allChildrenSeen
  | .Leaf l => .Leaf l

end CTreeNode

/-- lib.rs `enum ShrubberyError` (the three build-time validation errors). -/
inductive ShrubberyError where
  | CycleDetected (path : List Nat)
  | DanglingControlNode (id : Nat)
  | InvalidDecorator (decorator : Nat) (children : List Nat)
  deriving DecidableEq, Repr

/-! ### The adjacency map

`ahash::HashMap<CTreeNodeID, Vec<CTreeNodeID>>` modelled as an association
list with unique keys, iterated in insertion order. -/

/-- First-match lookup (`HashMap::get` / the panicking `Index`). -/
def lookupL : List (Nat × List Nat) → Nat → Option (List Nat)
  | [], _ => none
  | (k, v) :: m, i => if k = i then some v else lookupL m i

/-- `HashMap::contains_key`. -/
def containsKeyL (m : List (Nat × List Nat)) (i : Nat) : Bool := (lookupL m i).isSome

/-- Replace the value stored at an existing key (no-op if absent). -/
def setL : List (Nat × List Nat) → Nat → List Nat → List (Nat × List Nat)
  | [], _, _ => []
  | (k, v) :: m, i, w => if k = i then (k, w) :: m else (k, v) :: setL m i w

/-- `HashMap::entry(i).or_default()`: materialise an empty entry for a
missing key (a fresh entry hashes to the end of our iteration order). -/
def entryOr (m : List (Nat × List Nat)) (i : Nat) : List (Nat × List Nat) :=
  if containsKeyL m i then m else m ++ [(i, [])]

/-- `HashMap::remove(&i)`. -/
def removeKeyL (m : List (Nat × List Nat)) (i : Nat) : List (Nat × List Nat) :=
  m.filter (fun p => p.1 ≠ i)

/-- `values_mut().for_each(|v| v.retain(|c| c != &id))`. -/
def stripValL (m : List (Nat × List Nat)) (i : Nat) : List (Nat × List Nat) :=
  m.map (fun p => (p.1, p.2.filter (· ≠ i)))

/-- control/mod.rs `struct ControlTree<D>` at `D = StandardDecorator`
(`StdControlTree`): the arena of nodes indexed by id, and the adjacency
map from parent id to ordered child ids. -/
structure ControlTree where
  nodes : List CTreeNode
  tree : List (Nat × List Nat)
  deriving DecidableEq, Repr

namespace ControlTree

/-- control/mod.rs `ROOT_ID`. -/
def ROOT_ID : Nat := 0

/-- control/mod.rs `ControlTree::new`: a Root node at id 0 with an empty
adjacency entry. -/
def new : ControlTree := ⟨[CTreeNode.root], [(0, [])]⟩

/-- control/mod.rs arena indexing `self[id]` (panics when out of bounds;
the panic is the callers' `none` case). -/
def nodeAt (t : ControlTree) (i : Nat) : Option CTreeNode := t.nodes.get? i

/-- Write the node stored at an arena index. -/
def setNodeAt (t : ControlTree) (i : Nat) (n : CTreeNode) : ControlTree :=
  { t with nodes := t.nodes.set i n }

/-- control/mod.rs `ControlTree::children`: clone of the adjacency entry
(`self.tree[node_id]` panics when the key is missing). -/
def children (t : ControlTree) (i : Nat) : Option (List Nat) := lookupL t.tree i

/-- control/mod.rs `ControlTree::status`: the root's cached status or the
default Running (`none` models the panic on an empty arena). -/
def statusT (t : ControlTree) : Option Status :=
  (t.nodeAt ROOT_ID).map (fun n => n.status.getD .Running)

/-! ### Validation (control/mod.rs) and `CTreeBuilder::build` -/

/-- Run a sequence of checks in order, as the source's `?`-propagating
`for` loop does: the first error (or the first non-terminating check,
`none`) stops the scan. -/
def seqChecks : List Nat → (Nat → Option (Except ShrubberyError Unit)) →
    Option (Except ShrubberyError Unit)
  | [], _ => some (.ok ())
  | c :: cs, f =>
      match f c with
      | some (.ok ()) => seqChecks cs f
      | r => r

/-- control/mod.rs `ControlTree::recurse_children_check_cycles`: walk down
from `from`, comparing each visited node only against `history.first()`.
The Rust recursion is unbounded (the history only ever grows), hence the
fuel; `none` means the recursion did not finish within `fuel` (or a
`children` lookup panicked on a missing key). -/
def recurseCheckCycles : Nat → ControlTree → Nat → List Nat →
    Option (Except ShrubberyError Unit)
  | 0, _, _, _ => none
  | fuel + 1, t, fromId, history =>
      match history.head? with
      | some first =>
          if first = fromId then
            some (.error (.CycleDetected (history ++ [first])))
          else
            match t.children fromId with
            | none => none
            | some cs =>
                seqChecks cs (fun c => recurseCheckCycles fuel t c (history ++ [fromId]))
      | none =>
          match t.children fromId with
          | none => none
          | some cs =>
              seqChecks cs (fun c => recurseCheckCycles fuel t c (history ++ [fromId]))

/-- Inner `find_map` of `check_for_cycles`: try every child edge of one
entry. -/
def cyclesScanChildren (fuel : Nat) (t : ControlTree) (parent : Nat) :
    List Nat → Option (Except ShrubberyError Unit)
  | [] => some (.ok ())
  | c :: cs =>
      match recurseCheckCycles fuel t c [parent] with
      | some (.ok ()) => cyclesScanChildren fuel t parent cs
      | r => r

/-- Outer `find_map` of `check_for_cycles`: try every adjacency entry, in
iteration order. -/
def cyclesScan (fuel : Nat) (t : ControlTree) :
    List (Nat × List Nat) → Option (Except ShrubberyError Unit)
  | [] => some (.ok ())
  | (p, cs) :: rest =>
      match cyclesScanChildren fuel t p cs with
      | some (.ok ()) => cyclesScan fuel t rest
      | r => r

/-- control/mod.rs `ControlTree::check_for_cycles`. -/
def checkForCycles (fuel : Nat) (t : ControlTree) : Option (Except ShrubberyError Unit) :=
  cyclesScan fuel t t.tree

/-- Inner scan of `validate_decorators` over the arena
(`iter_decorators().flat_map(|d| d.id).find(|id| children(id).len() != 1)`;
nodes whose id is unset are skipped by the `flat_map`). -/
def decoratorsScan (t : ControlTree) : List CTreeNode → Option (Except ShrubberyError Unit)
  | [] => some (.ok ())
  | n :: rest =>
      match n.tryAsControl with
      | some c =>
          if c.isDecorator then
            match c.id with
            | some i =>
                match t.children i with
                | none => none
                | some cs =>
                    if cs.length ≠ 1 then some (.error (.InvalidDecorator i cs))
                    else decoratorsScan t rest
            | none => decoratorsScan t rest
          else decoratorsScan t rest
      | none => decoratorsScan t rest

/-- control/mod.rs `ControlTree::validate_decorators`. -/
def validateDecorators (t : ControlTree) : Option (Except ShrubberyError Unit) :=
  decoratorsScan t t.nodes

/-- Inner scan of `check_for_dangling_control` over the arena (only
`Control` variants are inspected: the Root wrapper and leaves are not). -/
def danglingScan (t : ControlTree) : List CTreeNode → Option (Except ShrubberyError Unit)
  | [] => some (.ok ())
  | n :: rest =>
      match n.tryAsControl with
      | some c =>
          match c.id with
          | some i =>
              match t.children i with
              | none => none
              | some cs =>
                  if cs.isEmpty then some (.error (.DanglingControlNode i))
                  else danglingScan t rest
          | none => danglingScan t rest
      | none => danglingScan t rest

/-- control/mod.rs `ControlTree::check_for_dangling_control`. -/
def checkForDanglingControl (t : ControlTree) : Option (Except ShrubberyError Unit) :=
  danglingScan t t.nodes

/-- control/mod.rs `ControlTree::validate_bt_rules`: cycles, then
decorator arity, then dangling controls. -/
def validateBtRules (fuel : Nat) (t : ControlTree) : Option (Except ShrubberyError Unit) :=
  match checkForCycles fuel t with
  | some (.ok ()) =>
      match validateDecorators t with
      | some (.ok ()) => checkForDanglingControl t
      | r => r
  | r => r

/-- builder.rs `CTreeBuilder::build`: validate, then hand the tree back. -/
def build (fuel : Nat) (t : ControlTree) : Option (Except ShrubberyError ControlTree) :=
  match validateBtRules fuel t with
  | some (.ok ()) => some (.ok t)
  | some (.error e) => some (.error e)
  | none => none

/-! ### Structural edits (control/manipulation.rs) -/

/-- control/mod.rs `ControlTree::add_floating_node`: push a node into the
arena (without touching its stored id) and return its arena index. -/
def addFloatingNode (t : ControlTree) (n : CTreeNode) : ControlTree × Nat :=
  ({ t with nodes := t.nodes ++ [n] }, t.nodes.length)

/-- manipulation.rs `ControlTree::add_child_unchecked_with_priority`:
the node keeps a pre-assigned id or receives `nodes.len()`; it is stored
at `nodes[id]` by `Vec::insert`, which shifts the suffix and panics for
`id > nodes.len()` (`none` here); the id is spliced into the parent's
child list at `min(priority, siblings.len())` and an adjacency entry is
ensured for the new id. -/
def addChildUncheckedWithPriority (t : ControlTree) (parentId : Nat)
    (child : CTreeNode) (priority : Nat) : Option (ControlTree × Nat) :=
  let i := child.id.getD t.nodes.length
  if i ≤ t.nodes.length then
    let child := child.setId i
    let nodes := t.nodes.insertIdx i child
    let tree := entryOr t.tree parentId
    let siblings := (lookupL tree parentId).getD []
    let index := min priority siblings.length
    let tree := setL tree parentId (siblings.insertIdx index i)
    let tree := entryOr tree i
    some (⟨nodes, tree⟩, i)
  else none

/-- manipulation.rs `ControlTree::add_child_unchecked` (priority
`usize::MAX`, modelled as an index past every sibling; `none` is the
`Vec::insert` panic for a preset id beyond the arena). -/
def addChildUnchecked (t : ControlTree) (parentId : Nat) (child : CTreeNode) :
    Option (ControlTree × Nat) :=
  let i := child.id.getD t.nodes.length
  if i ≤ t.nodes.length then
    let child := child.setId i
    let nodes := t.nodes.insertIdx i child
    let tree := entryOr t.tree parentId
    let siblings := (lookupL tree parentId).getD []
    let tree := setL tree parentId (siblings ++ [i])
    let tree := entryOr tree i
    some (⟨nodes, tree⟩, i)
  else none

/-- manipulation.rs `ControlTree::remove`: drop the id from every
adjacency list, then delete its own entry (the arena keeps the node). -/
def removeId (t : ControlTree) (i : Nat) : ControlTree :=
  { t with tree := removeKeyL (stripValL t.tree i) i }

/-- manipulation.rs `ControlTree::add_child_with_priority`: unchecked
insert, then the cycle check from the parent with an empty history; on a
cycle the new id is removed again and the error returned.  `none` models
an abort before a value is returned: the `Vec::insert` panic inside the
unchecked insert, or a non-terminating (or panicking) cycle check. -/
def addChildWithPriority (fuel : Nat) (t : ControlTree) (parentId : Nat)
    (child : CTreeNode) (priority : Nat) :
    Option (ControlTree × Except ShrubberyError Nat) :=
  match addChildUncheckedWithPriority t parentId child priority with
  | none => none
  | some (t', i) =>
      match recurseCheckCycles fuel t' parentId [] with
      | some (.ok ()) => some (t', .ok i)
      | some (.error e) => some (removeId t' i, .error e)
      | none => none

/-- One step of the node-splicing loop of
`add_subtree_with_priority`: copy every non-root node of the source into
the arena (keeping its stored id as the "old id"), recording old → new.
`node.id().unwrap()` panics when a node has no id: `none`. -/
def spliceNodes : ControlTree → List (Nat × Nat) → List CTreeNode →
    Option (ControlTree × List (Nat × Nat))
  | t, oldToNew, [] => some (t, oldToNew)
  | t, oldToNew, n :: rest =>
      if n.isRoot then spliceNodes t oldToNew rest
      else
        match n.id with
        | none => none
        | some oldId =>
            let (t', newId) := addFloatingNode t n
            spliceNodes t' (oldToNew ++ [(oldId, newId)]) rest

/-- Assoc-list lookup for the `old_to_new` remapping table. -/
def lookupPair : List (Nat × Nat) → Nat → Option Nat
  | [], _ => none
  | (k, v) :: m, i => if k = i then some v else lookupPair m i

/-- Second loop of `add_subtree_with_priority`: for every source
adjacency entry whose key is a remapped old id, extend `self.tree` at the
OLD parent id with the remapped children
(`self.tree.entry(old_parent).or_default().extend(new_children)`). -/
def spliceEdges (oldToNew : List (Nat × Nat)) :
    List (Nat × List Nat) → List (Nat × List Nat) → List (Nat × List Nat)
  | m, [] => m
  | m, (oldParent, cs) :: rest =>
      if (lookupPair oldToNew oldParent).isSome then
        let newChildren := cs.filterMap (lookupPair oldToNew)
        let m := entryOr m oldParent
        let m := setL m oldParent (((lookupL m oldParent).getD []) ++ newChildren)
        spliceEdges oldToNew m rest
      else spliceEdges oldToNew m rest

/-- manipulation.rs `ControlTree::add_subtree_with_priority`: float a new
Subtree-decorator node, splice its id into `from`'s children at
`min(priority, siblings.len())`, copy the source's non-root nodes and then
its adjacency entries as the source does. -/
def addSubtreeWithPriority (t : ControlTree) (fromId priority : Nat)
    (subtree : ControlTree) : Option ControlTree :=
  let (t, subtreeRoot) := addFloatingNode t (.Control (ControlNode.decorator .subtree))
  let tree := entryOr t.tree fromId
  let siblings := (lookupL tree fromId).getD []
  let index := min priority siblings.length
  let tree := setL tree fromId (siblings.insertIdx index subtreeRoot)
  let t : ControlTree := ⟨t.nodes, tree⟩
  match spliceNodes t [] subtree.nodes with
  | none => none
  | some (t, oldToNew) => some ⟨t.nodes, spliceEdges oldToNew t.tree subtree.tree⟩

end ControlTree

/-! ### The traversal engine (control/mod.rs `run_from_with_update_callback`)

A hook (`trait ExecutorHook`) is stateful in Rust (`&mut Hook`); it is
modelled as a state type `H` with a step function
`H → LeafNode → H × Status`.  The callback is the no-op `NoCallback`.
Outcomes that are not a normal return are:
* `fuelOut` — the modelled fuel ran out (the Rust loop/recursion is
  unbounded);
* `leafUpdatePanic` — the `panic!("Leaf nodes should not have children")`
  in `LeafNode::child_updated`;
* `panicked` — any other panic (arena index or adjacency-map key
  missing). -/
inductive EngineStop where
  | fuelOut
  | leafUpdatePanic
  | panicked
  deriving DecidableEq, Repr

namespace ControlTree

/-- Tick the node stored at an arena index (`self[node_id].tick()`),
`none` when the index is out of bounds. -/
def tickAt (t : ControlTree) (i : Nat) : Option (ControlTree × Status) :=
  (t.nodeAt i).map (fun n => let (n', st) := n.tick; (t.setNodeAt i n', st))

/-- Deliver a `ChildUpdate` to the node at an arena index
(`self[node_id].child_updated(update)`). -/
def childUpdatedAt (t : ControlTree) (i : Nat) (u : ChildUpdate) :
    Except EngineStop ControlTree :=
  match t.nodeAt i with
  | none => .error .panicked
  | some n =>
      match n.childUpdated u with
      | none => .error .leafUpdatePanic
      | some n' => .ok (t.setNodeAt i n')

/-- control/mod.rs `self[node_id].all_children_seen()`. -/
def allChildrenSeenAt (t : ControlTree) (i : Nat) : Option ControlTree :=
  (t.nodeAt i).map (fun n => t.setNodeAt i n.allChildrenSeen)

/-- control/mod.rs `ControlTree::reset_branch`: depth-first reset of a
whole branch driven by an explicit LIFO stack (`to_visit`); children are
pushed in order, so the last child is visited first.  Fuel bounds the
loop (the adjacency map may be cyclic); missing nodes or entries panic. -/
def resetBranch : Nat → ControlTree → List Nat → Except EngineStop ControlTree
  | _, t, [] => .ok t
  | 0, _, _ :: _ => .error .fuelOut
  | fuel + 1, t, i :: stack =>
      match t.nodeAt i with
      | none => .error .panicked
      | some n =>
          let t := t.setNodeAt i n.reset
          match t.children i with
          | none => .error .panicked
          | some cs => resetBranch fuel t (cs.reverse ++ stack)

/-- Reset the requested branches one after another
(`reset.into_iter().map(|id| self.reset_branch(id)).count()`). -/
def resetEach (fuel : Nat) : List Nat → ControlTree → Except EngineStop ControlTree
  | [], t => .ok t
  | r :: rs, t =>
      match resetBranch fuel t [r] with
      | .error e => Except.error e
      | .ok t => resetEach fuel rs t

/-- control/mod.rs `ControlTree::handle_reset_requests`: drain the
control node's queued reset requests (the Root wrapper and leaves have
none: `try_as_control_mut` only matches the Control variant) and reset
each requested branch in order. -/
def handleResetRequests (fuel : Nat) (t : ControlTree) (i : Nat) :
    Except EngineStop ControlTree :=
  match t.nodeAt i with
  | none => .error .panicked
  | some n =>
      match n with
      | .Control c =>
          let t := t.setNodeAt i (.Control { c with resetRequests := [] })
          resetEach fuel c.resetRequests t
      | _ => .ok t

end ControlTree

section Engine

variable {H : Type} (hookFn : H → LeafNode → H × Status)

open ControlTree

/-- The body of the `for child in self.children(&node_id)` loop of
`run_from_with_update_callback`, over a snapshot `cs` of the child list:
re-tick the parent and break when it turned terminal; skip children whose
cached status is Success; hook leaves and deliver the status upward;
tick other children, recursing (`recurse`) when the tick says Running,
and deliver the resulting subtree status upward. -/
def runChildrenF (recurse : Nat → ControlTree → H → Except EngineStop (ControlTree × H × Status))
    (t : ControlTree) (nodeId : Nat) (cs : List Nat) (h : H) :
    Except EngineStop (ControlTree × H) :=
  match cs with
  | [] => .ok (t, h)
  | c :: cs =>
      match t.tickAt nodeId with
      | none => .error .panicked
      | some (t, pst) =>
          if pst.isTerminal then .ok (t, h)
          else
            match t.nodeAt c with
            | none => .error .panicked
            | some n =>
                if (n.status.getD .Running).isSuccess then
                  -- don't re-run successful nodes
                  runChildrenF recurse t nodeId cs h
                else
                  match n with
                  | .Leaf leaf =>
                      let (h, st) := hookFn h leaf
                      let t := t.setNodeAt c ((CTreeNode.Leaf leaf).setStatus st)
                      match t.childUpdatedAt nodeId ⟨st, c⟩ with
                      | .error e => Except.error e
                      | .ok t => runChildrenF recurse t nodeId cs h
                  | n =>
                      let (n', st) := n.tick
                      let t := t.setNodeAt c n'
                      match (if st.isRunning then recurse c t h else .ok (t, h, st)) with
                      | .error e => Except.error e
                      | .ok (t, h, sub) =>
                          match t.childUpdatedAt nodeId ⟨sub, c⟩ with
                          | .error e => Except.error e
                          | .ok t => runChildrenF recurse t nodeId cs h

/-- The `while node_status.is_running()` loop of
`run_from_with_update_callback`: one iteration runs the children pass,
notifies `all_children_seen`, re-ticks the node and drains its reset
requests.  Each iteration consumes one unit of fuel. -/
def runLoopF (recurse : Nat → ControlTree → H → Except EngineStop (ControlTree × H × Status)) :
    Nat → ControlTree → Nat → H → Status → Except EngineStop (ControlTree × H × Status)
  | fuel, t, nodeId, h, st =>
      if st.isRunning then
        match fuel with
        | 0 => .error .fuelOut
        | fuel + 1 =>
            match t.children nodeId with
            | none => .error .panicked
            | some cs =>
                match runChildrenF hookFn recurse t nodeId cs h with
                | .error e => Except.error e
                | .ok (t, h) =>
                    match t.allChildrenSeenAt nodeId with
                    | none => .error .panicked
                    | some t =>
                        match t.tickAt nodeId with
                        | none => .error .panicked
                        | some (t, st') =>
                            match handleResetRequests (fuel + 1) t nodeId with
                            | .error e => Except.error e
                            | .ok t => runLoopF recurse fuel t nodeId h st'
      else .ok (t, h, st)

/-- control/mod.rs `ControlTree::run_from_with_update_callback` (with
`NoCallback`): tick the node once, then run the while loop. -/
def runFrom : Nat → ControlTree → Nat → H → Except EngineStop (ControlTree × H × Status)
  | 0, _, _, _ => .error .fuelOut
  | fuel + 1, t, nodeId, h =>
      match t.tickAt nodeId with
      | none => .error .panicked
      | some (t, st) =>
          runLoopF hookFn (fun c t' h' => runFrom fuel t' c h') fuel t nodeId h st

/-- control/mod.rs `ControlTree::run`: while the root's cached status is
Running, `run_from(ROOT_ID)`; return the final root status. -/
def runBT : Nat → ControlTree → H → Except EngineStop (ControlTree × H × Status)
  | fuel, t, h =>
      match t.statusT with
      | none => .error .panicked
      | some st =>
          if st.isRunning then
            match fuel with
            | 0 => .error .fuelOut
            | fuel + 1 =>
                match runFrom hookFn (fuel + 1) t ROOT_ID h with
                | .error e => Except.error e
                | .ok (t, h, _) => runBT fuel t h
          else .ok (t, h, st)

end Engine

end Shrubbery


namespace Shrubbery

/-! ### Concrete trees and hooks used by individual claims -/

/-- An `ExecutorHook` that always returns Failure and counts its
invocations (the `AlwaysFail` hook of tests/control_tree.rs, with the
logger reduced to a counter). -/
def hookCountFail : Nat → LeafNode → Nat × Status := fun n _ => (n + 1, .Failure)

/-- The tree of claim C1: Root → Repeater(N) → leaf, exactly as
`ControlTree::new()` + `add_child(ROOT_ID, ControlNode::repeater(N))` +
`add_child(1, LeafNode::default())` produce it. -/
def treeC1 (N : Nat) : ControlTree :=
  ⟨[CTreeNode.root,
    .Control { ControlNode.repeater N with id := some 1 },
    .Leaf { LeafNode.default with id := some 2 }],
   [(0, [1]), (1, [2]), (2, [])]⟩

/-- A stateful hook that logs `(leaf id, returned status)` pairs and makes
leaf 4 fail on its first visit and succeed afterwards (every other leaf
succeeds). -/
def hookC5 : List (Nat × Status) → LeafNode → List (Nat × Status) × Status := fun log leaf =>
  let i := leaf.id.getD 99
  let st : Status := if i = 4 ∧ ¬ (log.any (fun p => p.1 = 4)) then .Failure else .Success
  (log ++ [(i, st)], st)

/-- The tree of claim C5's counterexample:
Root → Repeater(1) → Sequence → leaves 3, 4, 5. -/
def treeC5 : ControlTree :=
  ⟨[CTreeNode.root,
    .Control { ControlNode.repeater 1 with id := some 1 },
    .Control { ControlNode.sequence with id := some 2 },
    .Leaf { LeafNode.default with id := some 3 },
    .Leaf { LeafNode.default with id := some 4 },
    .Leaf { LeafNode.default with id := some 5 }],
   [(0, [1]), (1, [2]), (2, [3, 4, 5]), (3, []), (4, []), (5, [])]⟩

/-- Claim C2's source subtree: a root with a single leaf child (id 1), as
built by `ControlTree::new()` + `add_child(ROOT_ID, LeafNode::default())`. -/
def subC2 : ControlTree :=
  ⟨[CTreeNode.root, .Leaf { LeafNode.default with id := some 1 }], [(0, [1]), (1, [])]⟩

/-- Claim C4's host tree: Root → Sequence(1) → Sequence(2) → Leaf(3),
a tree satisfying every structural invariant. -/
def treeC4 : ControlTree :=
  ⟨[CTreeNode.root,
    .Control { ControlNode.sequence with id := some 1 },
    .Control { ControlNode.sequence with id := some 2 },
    .Leaf { LeafNode.default with id := some 3 }],
   [(0, [1]), (1, [2]), (2, [3]), (3, [])]⟩

/-- Claim C3's tree: the adjacency map contains the edges 1→2 and the
self-loop 2→2, and its first entry in iteration order is `(0, [1])`. -/
def treeC3 : ControlTree :=
  ⟨[CTreeNode.root,
    .Control { ControlNode.sequence with id := some 1 },
    .Control { ControlNode.sequence with id := some 2 }],
   [(0, [1]), (1, [2]), (2, [2])]⟩

/-- Claim C9's tree: slot 0 of the arena holds a Leaf (not the Root
node) with a leaf child; none of the three validation checks inspects the
variant stored at `ROOT_ID`, so `build` accepts it. -/
def treeC9 : ControlTree :=
  ⟨[.Leaf { LeafNode.default with id := some 0 },
    .Leaf { LeafNode.default with id := some 1 }],
   [(0, [1]), (1, [])]⟩

/-- A well-formed tree (Root → leaf) used to witness the amended C9. -/
def treeC9good : ControlTree :=
  ⟨[CTreeNode.root, .Leaf { LeafNode.default with id := some 1 }], [(0, [1]), (1, [])]⟩

/-- The observable operations a Sequence payload receives between two
resets: child updates and all-children-seen notifications. -/
inductive SeqOp where
  | update (u : ChildUpdate)
  | seen
  deriving DecidableEq, Repr

/-- Apply a list of operations to a Sequence payload, in order, using the
source transition functions. -/
def applySeqOps : List SeqOp → Sequence → Sequence
  | [], s => s
  | .update u :: ops, s => applySeqOps ops (s.childUpdated u)
  | .seen :: ops, s => applySeqOps ops s.allChildrenSeen

/-- The inner-loop state of the C1 run at the Repeater node (id 1): the
root node is arbitrary (it is not touched while the loop runs at node 1),
the repeater holds `initRetry = m`, `retry`, an internal status and a
pending reset request, the wrapper's cached status is Running, and the
leaf carries status `ls`. -/
def treeC1Mid (rootN : CTreeNode) (m retry : Nat) (rs : Option Status)
    (rr : Option Nat) (ls : Option Status) : ControlTree :=
  ⟨[rootN,
    .Control { nodeType := .Decorator (.Repeat ⟨m, retry, rs, rr⟩),
               status := some .Running, id := some 1, resetRequests := [] },
    .Leaf { LeafNode.default with id := some 2, status := ls }],
   [(0, [1]), (1, [2]), (2, [])]⟩

/-- The state in which the C1 loop at the Repeater node terminates:
retries exhausted, everything latched Failure, the last reset request
still parked in the repeater. -/
def treeC1Done (rootN : CTreeNode) (m : Nat) : ControlTree :=
  ⟨[rootN,
    .Control { nodeType := .Decorator (.Repeat ⟨m, 0, some .Failure, some 2⟩),
               status := some .Failure, id := some 1, resetRequests := [] },
    .Leaf { LeafNode.default with id := some 2, status := some .Failure }],
   [(0, [1]), (1, [2]), (2, [])]⟩

/-- The observable node kind at an arena slot: `some true` for a Leaf,
`some false` for Root/Control, `none` for an out-of-range slot. -/
def leafKindAt (t : ControlTree) (i : Nat) : Option Bool :=
  (t.nodeAt i).map CTreeNode.isLeaf

/-- Two trees whose arenas agree slot-by-slot on node kinds (the engine
mutates node state but never changes a slot's variant). -/
def sameLeafKinds (t t' : ControlTree) : Prop :=
  ∀ i, leafKindAt t' i = leafKindAt t i

/-- The node stored at a slot is not a Leaf (vacuously true when the slot
is out of range, where the engine panics rather than delivering updates). -/
def notLeafAt (t : ControlTree) (i : Nat) : Prop :=
  ∀ n, t.nodeAt i = some n → n.isLeaf = false

/-! ### Claim C7 -/

/-- C7: for every Repeater with retries remaining (`retry > 0`),
`child_updated` on a Running update sets the status to Running, stores
the updating child's id as the pending reset request, returns Running
and leaves the retry counter unchanged. -/
theorem claim_C7_repeater_running (r : Repeater) (u : ChildUpdate)
    (hret : 0 < r.retry) (hst : u.status = .Running) :
    r.childUpdated u =
      ({ r with status := some .Running, resetRequest := some u.childId }, .Running) := by
  have hc : r.canRetry = true := by simp [Repeater.canRetry, hret]
  simp [Repeater.childUpdated, hc, hst]

/-- Witness for C7 at a concrete repeater and update. -/
theorem claim_C7_witness :
    (Repeater.new 2).childUpdated ⟨.Running, 7⟩ =
      ({ Repeater.new 2 with status := some .Running, resetRequest := some 7 }, .Running) :=
  claim_C7_repeater_running (Repeater.new 2) ⟨.Running, 7⟩ (by decide) rfl

/-! ### Claim C8 -/

/-- C8: `Fallback::all_children_seen` turns an unset or Running status
into Failure and leaves a terminal status unchanged; `child_updated`
changes the status only on Success updates. -/
theorem claim_C8_fallback (f : Fallback) (u : ChildUpdate) :
    (f.allChildrenSeen.status =
      match f.status with
      | none => some .Failure
      | some .Running => some .Failure
      | some .Success => some .Success
      | some .Failure => some .Failure)
    ∧ ((f.childUpdated u).status = if u.status = .Success then some .Success else f.status) := by
  constructor
  · rcases f with ⟨_ | st⟩
    · rfl
    · cases st <;> rfl
  · rcases f with ⟨st⟩
    cases u with
    | mk us ui => cases us <;> simp [Fallback.childUpdated, Status.isSuccess]

/-! ### Claim C10 -/

lemma seq_childUpdated_keeps_failed (s : Sequence) (u : ChildUpdate)
    (h : s.failed.isSome) : (s.childUpdated u).failed.isSome := by
  cases u with
  | mk us ui => cases us <;> simp [Sequence.childUpdated] <;> simpa using h

lemma seq_allChildrenSeen_keeps_failed (s : Sequence)
    (h : s.failed.isSome) : s.allChildrenSeen.failed.isSome := by
  unfold Sequence.allChildrenSeen
  split <;> simpa using h

lemma applySeqOps_keeps_failed (ops : List SeqOp) (s : Sequence)
    (h : s.failed.isSome) : (applySeqOps ops s).failed.isSome := by
  induction ops generalizing s with
  | nil => simpa using h
  | cons op ops ih =>
      cases op with
      | update u => exact ih _ (seq_childUpdated_keeps_failed s u h)
      | seen => exact ih _ (seq_allChildrenSeen_keeps_failed s h)

/-- C10: once a Sequence's `failed` field is set, every later tick returns
Failure — whatever interleaved `child_updated` calls (including a Success
update from the failed child) and `all_children_seen` calls happen in
between — and the latch is still set afterwards; only `reset` clears it. -/
theorem claim_C10_sequence_latch (ops : List SeqOp) (s : Sequence)
    (h : s.failed.isSome) :
    ((applySeqOps ops s).tick).2 = .Failure ∧ (applySeqOps ops s).failed.isSome
      ∧ (applySeqOps ops s).reset.failed = none := by
  have hf := applySeqOps_keeps_failed ops s h
  refine ⟨?_, hf, rfl⟩
  unfold Sequence.tick
  simp [hf]

/-- Witness for C10: a failed Sequence stays Failure across a Success
update from the failed child followed by an all-children-seen call. -/
theorem claim_C10_witness :
    ((applySeqOps [.update ⟨.Success, 5⟩, .seen] { Sequence.new with failed := some 5 }).tick).2
        = .Failure
      ∧ (applySeqOps [.update ⟨.Success, 5⟩, .seen]
          { Sequence.new with failed := some 5 }).failed.isSome
      ∧ (applySeqOps [.update ⟨.Success, 5⟩, .seen]
          { Sequence.new with failed := some 5 }).reset.failed = none :=
  claim_C10_sequence_latch [.update ⟨.Success, 5⟩, .seen]
    { Sequence.new with failed := some 5 } (by decide)

/-! ### Claim C6 -/

/-- C6: inside one child-iteration pass, when the parent's re-tick is not
terminal and the child considered next has a cached Success status, that
child is skipped: the engine moves straight on to the remaining children
of the pass in the parent-ticked tree, without hooking, ticking or
recursing into the skipped child. -/
theorem claim_C6_skip_success {H : Type} (hookFn : H → LeafNode → H × Status)
    (recurse : Nat → ControlTree → H → Except EngineStop (ControlTree × H × Status))
    (t t' : ControlTree) (nodeId c : Nat) (cs : List Nat) (h : H)
    (pst : Status) (n : CTreeNode)
    (htick : t.tickAt nodeId = some (t', pst))
    (hterm : pst.isTerminal = false)
    (hchild : t'.nodeAt c = some n)
    (hsucc : (n.status.getD .Running).isSuccess = true) :
    runChildrenF hookFn recurse t nodeId (c :: cs) h =
      runChildrenF hookFn recurse t' nodeId cs h := by
  rw [runChildrenF, htick]
  simp [hterm, hchild, hsucc]

/-- Witness for C6 on a concrete tree: the parent Root is Running, child 1
is a leaf cached Success, so the pass over `[1]` ends without invoking the
hook (the hook state is returned unchanged). -/
theorem claim_C6_witness :
    runChildrenF hookCountFail (fun _ t h => .ok (t, h, .Running))
        ⟨[CTreeNode.root, .Leaf { LeafNode.default with id := some 1, status := some .Success }],
         [(0, [1]), (1, [])]⟩ 0 [1] 0 =
      runChildrenF hookCountFail (fun _ t h => .ok (t, h, .Running))
        ((⟨[CTreeNode.root, .Leaf { LeafNode.default with id := some 1, status := some .Success }],
          [(0, [1]), (1, [])]⟩ : ControlTree).tickAt 0 |>.get (by decide)).1 0 [] 0 :=
  claim_C6_skip_success hookCountFail _ _ _ 0 1 [] 0 .Running
    (.Leaf { LeafNode.default with id := some 1, status := some .Success })
    (by decide) (by decide) (by decide) (by decide)

/-! ### Claim C2 -/

/-- C2: evaluation of `add_subtree_with_priority` on a fresh tree and the
root→leaf source subtree.  The new Subtree-decorator node gets id 1 and is
inserted as the root's only child, but the spliced copy of the source leaf
(arena index 2) appears in NO adjacency list — the source root's adjacency
entry is filtered out (its key 0 is not in `old_to_new`) and the remaining
entries are keyed by the OLD ids — so nothing hangs beneath the
Subtree-decorator node, contradicting the claim. -/
theorem claim_C2_code_eval :
    (ControlTree.addSubtreeWithPriority ControlTree.new 0 0 subC2).map
        (fun r => (r.tree, r.nodes.length)) = some ([(0, [1]), (1, [])], 3)
      ∧ ∀ r, ControlTree.addSubtreeWithPriority ControlTree.new 0 0 subC2 = some r →
          ∀ p ∈ r.tree, 2 ∉ p.2 := by
  constructor
  · rfl
  · intro r hr
    have hre : r = ⟨[CTreeNode.root, .Control (ControlNode.decorator .subtree),
        .Leaf { LeafNode.default with id := some 1 }], [(0, [1]), (1, [])]⟩ := by
      have h := hr
      rw [show ControlTree.addSubtreeWithPriority ControlTree.new 0 0 subC2
          = some ⟨[CTreeNode.root, .Control (ControlNode.decorator .subtree),
            .Leaf { LeafNode.default with id := some 1 }], [(0, [1]), (1, [])]⟩ from rfl] at h
      exact (Option.some.inj h).symm
    subst hre
    decide

/-! ### Claim C3 -/

/-- The self-loop entry of `treeC3`: once the DFS of
`recurse_children_check_cycles` reaches node 2 with a history whose first
element is 0, it recurses on 2 forever (2's only child is 2, and 2 never
equals the history head 0), so no amount of fuel produces a result. -/
lemma recurseCheckCycles_selfloop_none (fuel : Nat) (history : List Nat)
    (hh : history.head? = some 0) :
    ControlTree.recurseCheckCycles fuel treeC3 2 history = none := by
  induction fuel generalizing history with
  | zero => rfl
  | succ fuel ih =>
      rw [ControlTree.recurseCheckCycles, hh]
      have h2 : treeC3.children 2 = some [2] := rfl
      simp only [show (0 = 2) = False by simp, if_false, h2]
      rw [ControlTree.seqChecks]
      rw [ih (history ++ [2]) (by cases history <;> simp_all)]

/-- C3: on `treeC3` (whose adjacency map is {0:[1], 1:[2], 2:[2]}, the
entry (0,[1]) first in iteration order) the cycle check never returns:
the DFS for the edge (0, 1) walks 1 → 2 → 2 → … comparing each node only
against `history.first() = 0`, so `check_for_cycles` — and with it
`build` — neither returns Ok nor any error value, for every fuel bound. -/
theorem claim_C3_diverges :
    (∀ fuel, ControlTree.checkForCycles fuel treeC3 = none)
      ∧ (∀ fuel, ControlTree.build fuel treeC3 = none)
      ∧ ControlTree.recurseCheckCycles 9 treeC3 1 [2] =
          some (.error (.CycleDetected [2, 1, 2])) := by
  have hcfc : ∀ fuel, ControlTree.checkForCycles fuel treeC3 = none := by
    intro fuel
    cases fuel with
    | zero => rfl
    | succ fuel =>
        show ControlTree.cyclesScan (fuel + 1) treeC3 [(0, [1]), (1, [2]), (2, [2])] = none
        rw [ControlTree.cyclesScan, ControlTree.cyclesScanChildren]
        rw [ControlTree.recurseCheckCycles]
        have h1 : treeC3.children 1 = some [2] := rfl
        simp only [List.head?, show (0 = 1) = False by simp, if_false, h1]
        rw [ControlTree.seqChecks]
        rw [recurseCheckCycles_selfloop_none fuel ([0] ++ [1]) (by simp)]
  refine ⟨hcfc, ?_, by rfl⟩
  intro fuel
  unfold ControlTree.build ControlTree.validateBtRules
  rw [hcfc fuel]

/-! ### Counterexamples C1, C5, C9 -/

/-- C1 is false as stated at N = 0: a Repeater(0) over a leaf whose hook
always fails invokes the hook exactly 2 times (not 0 + 1 = 1) before the
run terminates with Failure.  (The second invocation happens because a
leaf cached Failure — unlike one cached Success — is re-hooked on the
pass that runs after the retry budget is exhausted.) -/
theorem claim_C1_counterexample :
    (runBT hookCountFail 8 (treeC1 0) 0).map (fun r => (r.2.1, r.2.2)) =
        .ok (2, .Failure)
      ∧ (2 : Nat) ≠ 0 + 1 := by
  refine ⟨?_, by decide⟩
  simp [runBT, runFrom, runLoopF, runChildrenF, ControlTree.tickAt, ControlTree.childUpdatedAt,
    ControlTree.allChildrenSeenAt, ControlTree.handleResetRequests, ControlTree.resetEach,
    ControlTree.resetBranch, ControlTree.nodeAt, ControlTree.setNodeAt, ControlTree.children,
    ControlTree.statusT, ControlTree.ROOT_ID, lookupL,
    CTreeNode.tick, CTreeNode.childUpdated, CTreeNode.allChildrenSeen, CTreeNode.setStatus,
    CTreeNode.status, CTreeNode.reset, CTreeNode.clearStatus, CTreeNode.root,
    ControlNode.tick, ControlNode.childUpdated, ControlNode.allChildrenSeen, ControlNode.reset,
    ControlNode.sequence, ControlNode.repeater, ControlNode.decorator,
    Sequence.tick, Sequence.childUpdated, Sequence.allChildrenSeen, Sequence.new, Sequence.reset,
    StandardDecorator.childUpdated, StandardDecorator.statusD, StandardDecorator.takeResetRequest,
    StandardDecorator.reset,
    Repeater.childUpdated, Repeater.statusD, Repeater.takeResetRequest, Repeater.reset,
    Repeater.canRetry, Repeater.new, LeafNode.tick, LeafNode.reset, LeafNode.default,
    Status.isRunning, Status.isTerminal, Status.isSuccess, Status.isFailure, Except.map, treeC1, hookCountFail]

/-- C5 is false as stated: in `treeC5` (Root → Repeater(1) → Sequence →
leaves 3, 4, 5) with a hook that fails leaf 4 on first visit only, leaf 4
(child index 1 of the Sequence) is the first child to deliver Failure, yet
leaf 5 (child index 2) is hooked later in the same run: the Repeater's
reset request clears the Sequence's failure latch between passes.  The log
of (leaf id, hook status) pairs over the whole run is shown. -/
theorem claim_C5_counterexample :
    (runBT hookC5 12 treeC5 []).map (fun r => (r.2.1, r.2.2)) =
        .ok ([(3, .Success), (4, .Failure), (3, .Success), (4, .Success), (5, .Success)],
          .Success)
      ∧ (4, Status.Failure) ∈ [(3, Status.Success), (4, Status.Failure), (3, Status.Success),
          (4, Status.Success), (5, Status.Success)] := by
  refine ⟨?_, by decide⟩
  simp [runBT, runFrom, runLoopF, runChildrenF, ControlTree.tickAt, ControlTree.childUpdatedAt,
    ControlTree.allChildrenSeenAt, ControlTree.handleResetRequests, ControlTree.resetEach,
    ControlTree.resetBranch, ControlTree.nodeAt, ControlTree.setNodeAt, ControlTree.children,
    ControlTree.statusT, ControlTree.ROOT_ID, lookupL,
    CTreeNode.tick, CTreeNode.childUpdated, CTreeNode.allChildrenSeen, CTreeNode.setStatus,
    CTreeNode.status, CTreeNode.reset, CTreeNode.clearStatus, CTreeNode.root,
    ControlNode.tick, ControlNode.childUpdated, ControlNode.allChildrenSeen, ControlNode.reset,
    ControlNode.sequence, ControlNode.repeater, ControlNode.decorator,
    Sequence.tick, Sequence.childUpdated, Sequence.allChildrenSeen, Sequence.new, Sequence.reset,
    StandardDecorator.childUpdated, StandardDecorator.statusD, StandardDecorator.takeResetRequest,
    StandardDecorator.reset,
    Repeater.childUpdated, Repeater.statusD, Repeater.takeResetRequest, Repeater.reset,
    Repeater.canRetry, Repeater.new, LeafNode.tick, LeafNode.reset, LeafNode.default,
    Status.isRunning, Status.isTerminal, Status.isSuccess, Status.isFailure, Except.map, treeC5, hookC5]

/-- C9 is false as stated: `treeC9` stores a Leaf in arena slot 0 and is
accepted by `build` (none of the three validation checks inspects the
variant stored at `ROOT_ID`), yet running it delivers a `ChildUpdate` to
that Leaf, hitting the `panic!("Leaf nodes should not have children")`
abort. -/
theorem claim_C9_counterexample :
    ControlTree.build 50 treeC9 = some (.ok treeC9)
      ∧ runBT hookCountFail 8 treeC9 0 = .error .leafUpdatePanic := by
  constructor
  · simp [ControlTree.build, ControlTree.validateBtRules, ControlTree.checkForCycles,
      ControlTree.cyclesScan, ControlTree.cyclesScanChildren, ControlTree.recurseCheckCycles,
      ControlTree.seqChecks, ControlTree.validateDecorators, ControlTree.decoratorsScan,
      ControlTree.checkForDanglingControl, ControlTree.danglingScan, ControlTree.children,
      lookupL, CTreeNode.tryAsControl, treeC9]
  · simp [runBT, runFrom, runLoopF, runChildrenF, ControlTree.tickAt, ControlTree.childUpdatedAt,
    ControlTree.allChildrenSeenAt, ControlTree.handleResetRequests, ControlTree.resetEach,
    ControlTree.resetBranch, ControlTree.nodeAt, ControlTree.setNodeAt, ControlTree.children,
    ControlTree.statusT, ControlTree.ROOT_ID, lookupL,
    CTreeNode.tick, CTreeNode.childUpdated, CTreeNode.allChildrenSeen, CTreeNode.setStatus,
    CTreeNode.status, CTreeNode.reset, CTreeNode.clearStatus, CTreeNode.root,
    ControlNode.tick, ControlNode.childUpdated, ControlNode.allChildrenSeen, ControlNode.reset,
    ControlNode.sequence, ControlNode.repeater, ControlNode.decorator,
    Sequence.tick, Sequence.childUpdated, Sequence.allChildrenSeen, Sequence.new, Sequence.reset,
    StandardDecorator.childUpdated, StandardDecorator.statusD, StandardDecorator.takeResetRequest,
    StandardDecorator.reset,
    Repeater.childUpdated, Repeater.statusD, Repeater.takeResetRequest, Repeater.reset,
    Repeater.canRetry, Repeater.new, LeafNode.tick, LeafNode.reset, LeafNode.default,
    Status.isRunning, Status.isTerminal, Status.isSuccess, Status.isFailure, Except.map, treeC9, hookCountFail]

/-! ### Claim C4 -/

lemma lookupL_append (m m' : List (Nat × List Nat)) (k : Nat) :
    lookupL (m ++ m') k =
      match lookupL m k with
      | some v => some v
      | none => lookupL m' k := by
  induction m with
  | nil => simp [lookupL]
  | cons p m ih =>
      obtain ⟨a, v⟩ := p
      by_cases h : a = k <;> simp [lookupL, h, ih]

lemma lookupL_entryOr_self (m : List (Nat × List Nat)) (k : Nat) :
    lookupL (entryOr m k) k = some ((lookupL m k).getD []) := by
  unfold entryOr containsKeyL
  cases hm : lookupL m k with
  | some v => simp [hm]
  | none => simp [hm, lookupL_append, lookupL]

lemma lookupL_entryOr_ne (m : List (Nat × List Nat)) (k j : Nat) (h : j ≠ k) :
    lookupL (entryOr m k) j = lookupL m j := by
  unfold entryOr
  by_cases hm : containsKeyL m k = true
  · simp [hm]
  · rw [if_neg (by simp [hm]), lookupL_append]
    cases hj : lookupL m j with
    | some v => rfl
    | none =>
        simp only [lookupL]
        rw [if_neg (fun hh : k = j => h hh.symm)]

lemma lookupL_setL_master (m : List (Nat × List Nat)) (k : Nat) (v : List Nat) (j : Nat) :
    lookupL (setL m k v) j =
      if j = k then (if containsKeyL m k = true then some v else none)
      else lookupL m j := by
  induction m with
  | nil => simp [setL, lookupL, containsKeyL]
  | cons p m ih =>
      obtain ⟨a, w⟩ := p
      by_cases hak : a = k
      · by_cases hjk : j = k
        · simp [setL, lookupL, containsKeyL, hak, hjk, hak.trans hjk.symm]
        · have haj : ¬ a = j := fun hh => hjk (hh ▸ hak)
          have hkj : ¬ k = j := fun hh => hjk hh.symm
          simp [setL, lookupL, containsKeyL, hak, hjk, haj, hkj]
      · by_cases haj : a = j
        · have hjk : ¬ j = k := fun hh => hak (haj.trans hh)
          simp [setL, lookupL, containsKeyL, hak, haj, hjk]
        · simp [setL, lookupL, containsKeyL, hak, haj, ih]

lemma containsKeyL_setL (m : List (Nat × List Nat)) (k : Nat) (v : List Nat) (j : Nat) :
    containsKeyL (setL m k v) j = containsKeyL m j := by
  simp only [containsKeyL, lookupL_setL_master]
  by_cases hjk : j = k
  · subst hjk
    by_cases hc : (lookupL m j).isSome = true <;> simp_all [containsKeyL]
  · simp [hjk]

lemma lookupL_setL_self (m : List (Nat × List Nat)) (k : Nat) (v : List Nat)
    (h : containsKeyL m k = true) : lookupL (setL m k v) k = some v := by
  rw [lookupL_setL_master]
  simp [h]

lemma lookupL_setL_ne (m : List (Nat × List Nat)) (k : Nat) (v : List Nat) (j : Nat)
    (h : j ≠ k) : lookupL (setL m k v) j = lookupL m j := by
  rw [lookupL_setL_master]
  simp [h]

lemma lookupL_stripValL (m : List (Nat × List Nat)) (i k : Nat) :
    lookupL (stripValL m i) k = (lookupL m k).map (List.filter (· ≠ i)) := by
  induction m with
  | nil => simp [stripValL, lookupL]
  | cons p m ih =>
      obtain ⟨a, v⟩ := p
      by_cases h : a = k
      · simp [stripValL, lookupL, h]
      · simpa [stripValL, lookupL, h] using ih

lemma lookupL_removeKeyL (m : List (Nat × List Nat)) (i k : Nat) :
    lookupL (removeKeyL m i) k = if k = i then none else lookupL m k := by
  induction m with
  | nil => simp [removeKeyL, lookupL]
  | cons p m ih =>
      obtain ⟨a, v⟩ := p
      have hdrop : removeKeyL ((a, v) :: m) i =
          if a = i then removeKeyL m i else (a, v) :: removeKeyL m i := by
        simp only [removeKeyL, List.filter_cons]
        by_cases h : a = i <;> simp [h]
      rw [hdrop]
      by_cases hai : a = i
      · rw [if_pos hai, ih]
        by_cases hk : k = i
        · simp [hk]
        · have hak : ¬ a = k := fun hh => hk (hh.symm.trans hai)
          rw [if_neg hk, if_neg hk]
          simp only [lookupL]
          rw [if_neg hak]
      · rw [if_neg hai]
        simp only [lookupL]
        by_cases hak : a = k
        · rw [if_pos hak, if_neg (fun hh : k = i => hai (hak.trans hh)), if_pos hak]
        · rw [if_neg hak, ih, if_neg hak]

lemma filter_insertIdx (l : List Nat) (n a : Nat) (p : Nat → Bool) (hpa : p a = false) :
    (l.insertIdx n a).filter p = l.filter p := by
  induction l generalizing n with
  | nil =>
      cases n with
      | zero => simp [hpa]
      | succ n => simp
  | cons x l ih =>
      cases n with
      | zero => simp [hpa]
      | succ n =>
          rw [List.insertIdx_succ_cons]
          rw [List.filter_cons, List.filter_cons]
          cases hx : p x <;> simp [hx, ih]

lemma containsKeyL_entryOr_self (m : List (Nat × List Nat)) (k : Nat) :
    containsKeyL (entryOr m k) k = true := by
  simp [containsKeyL, lookupL_entryOr_self]

lemma entryOr_of_contains (m : List (Nat × List Nat)) (k : Nat)
    (h : containsKeyL m k = true) : entryOr m k = m := by
  unfold entryOr
  simp [h]

/-- When `add_child_unchecked_with_priority` returns (no `Vec::insert`
panic), the returned id is the preset id or the old arena length, and the
adjacency map is: ensure the parent's entry, splice the new id into it at
`min(priority, siblings.len())`, ensure the new id's entry. -/
lemma unchecked_tree_eq (t : ControlTree) (parentId : Nat) (child : CTreeNode)
    (priority : Nat) (t₁ : ControlTree) (i : Nat)
    (h : ControlTree.addChildUncheckedWithPriority t parentId child priority
      = some (t₁, i)) :
    i = child.id.getD t.nodes.length ∧
    t₁.tree =
      entryOr (setL (entryOr t.tree parentId) parentId
        (((lookupL t.tree parentId).getD []).insertIdx
          (min priority ((lookupL t.tree parentId).getD []).length)
          (child.id.getD t.nodes.length)))
        (child.id.getD t.nodes.length) := by
  have hsib : (lookupL (entryOr t.tree parentId) parentId).getD ([] : List Nat)
      = (lookupL t.tree parentId).getD [] := by
    rw [lookupL_entryOr_self]
    rfl
  simp only [ControlTree.addChildUncheckedWithPriority] at h
  by_cases hle : child.id.getD t.nodes.length ≤ t.nodes.length
  · rw [if_pos hle] at h
    simp only [Option.some.injEq, Prod.mk.injEq] at h
    obtain ⟨ht, hi⟩ := h
    refine ⟨hi.symm, ?_⟩
    rw [← ht]
    show entryOr (setL (entryOr t.tree parentId) parentId
        (((lookupL (entryOr t.tree parentId) parentId).getD []).insertIdx
          (min priority ((lookupL (entryOr t.tree parentId) parentId).getD []).length)
          (child.id.getD t.nodes.length)))
        (child.id.getD t.nodes.length) = _
    rw [hsib]
  · rw [if_neg hle] at h
    exact Option.noConfusion h

/-- The returned tree of `add_child_unchecked_with_priority`: the
parent's entry now holds the new id at the insertion index. -/
lemma unchecked_parent_lookup (t : ControlTree) (parentId : Nat) (child : CTreeNode)
    (priority : Nat) (t₁ : ControlTree) (i : Nat)
    (h : ControlTree.addChildUncheckedWithPriority t parentId child priority
      = some (t₁, i)) :
    lookupL t₁.tree parentId =
      some (((lookupL t.tree parentId).getD []).insertIdx
        (min priority ((lookupL t.tree parentId).getD []).length)
        (child.id.getD t.nodes.length)) := by
  rw [(unchecked_tree_eq t parentId child priority t₁ i h).2]
  by_cases hpi : parentId = child.id.getD t.nodes.length
  · rw [← hpi, entryOr_of_contains _ _ (by rw [containsKeyL_setL] ; exact containsKeyL_entryOr_self _ _)]
    exact lookupL_setL_self _ _ _ (containsKeyL_entryOr_self _ _)
  · rw [lookupL_entryOr_ne _ _ _ hpi]
    exact lookupL_setL_self _ _ _ (containsKeyL_entryOr_self _ _)

/-- `add_child_unchecked_with_priority` leaves every entry other than the
parent's and the new id's untouched. -/
lemma unchecked_other_lookup (t : ControlTree) (parentId : Nat) (child : CTreeNode)
    (priority : Nat) (t₁ : ControlTree) (i : Nat)
    (h : ControlTree.addChildUncheckedWithPriority t parentId child priority
      = some (t₁, i)) (k : Nat) (hk1 : k ≠ parentId)
    (hk2 : k ≠ child.id.getD t.nodes.length) :
    lookupL t₁.tree k = lookupL t.tree k := by
  rw [(unchecked_tree_eq t parentId child priority t₁ i h).2,
    lookupL_entryOr_ne _ _ _ hk2, lookupL_setL_ne _ _ _ _ hk1,
    lookupL_entryOr_ne _ _ _ hk1]

lemma seqChecks_error (cs : List Nat) (f : Nat → Option (Except ShrubberyError Unit))
    (e : ShrubberyError) (h : ControlTree.seqChecks cs f = some (.error e))
    (hf : ∀ c e', f c = some (.error e') → ∃ p, e' = .CycleDetected p) :
    ∃ p, e = .CycleDetected p := by
  induction cs with
  | nil => simp [ControlTree.seqChecks] at h
  | cons c cs ih =>
      rw [ControlTree.seqChecks] at h
      cases hfc : f c with
      | none => simp [hfc] at h
      | some res =>
          cases res with
          | ok u =>
              cases u
              simp only [hfc] at h
              exact ih h
          | error e' =>
              simp only [hfc, Option.some.injEq, Except.error.injEq] at h
              subst h
              exact hf c e' hfc

/-- Every error `recurse_children_check_cycles` can produce is a
`CycleDetected`. -/
lemma recurseCheckCycles_error (fuel : Nat) (t : ControlTree) (fromId : Nat)
    (history : List Nat) (e : ShrubberyError)
    (h : ControlTree.recurseCheckCycles fuel t fromId history = some (.error e)) :
    ∃ p, e = .CycleDetected p := by
  induction fuel generalizing fromId history e with
  | zero => cases h
  | succ fuel ih =>
      rw [ControlTree.recurseCheckCycles] at h
      cases hh : history.head? with
      | some first =>
          simp only [hh] at h
          by_cases hfi : first = fromId
          · rw [if_pos hfi] at h
            refine ⟨history ++ [first], ?_⟩
            simp only [Option.some.injEq, Except.error.injEq] at h
            exact h.symm
          · rw [if_neg hfi] at h
            cases hc : t.children fromId with
            | none => simp [hc] at h
            | some cs =>
                simp only [hc] at h
                exact seqChecks_error _ _ _ h (fun c e' hc' => ih c _ e' hc')
      | none =>
          simp only [hh] at h
          cases hc : t.children fromId with
          | none => simp [hc] at h
          | some cs =>
              simp only [hc] at h
              exact seqChecks_error _ _ _ h (fun c e' hc' => ih c _ e' hc')

lemma addChildWithPriority_eq (fuel : Nat) (t : ControlTree) (parentId : Nat)
    (child : CTreeNode) (priority : Nat) :
    ControlTree.addChildWithPriority fuel t parentId child priority =
      match ControlTree.addChildUncheckedWithPriority t parentId child priority with
      | none => none
      | some (t', i) =>
          match ControlTree.recurseCheckCycles fuel t' parentId [] with
          | some (.ok ()) => some (t', .ok i)
          | some (.error e) => some (ControlTree.removeId t' i, .error e)
          | none => none := rfl

/-- On a one-node tree, adding a child that carries the preset id 5 hits
the `Vec::insert` panic (`self.nodes.insert(5, child)` with index > len):
the model returns no value. -/
lemma addChildWithPriority_preset_id_aborts :
    ControlTree.addChildWithPriority 10 ControlTree.new 0
      (.Leaf { LeafNode.default with id := some 5 }) 0 = none := by
  simp [ControlTree.addChildWithPriority, ControlTree.addChildUncheckedWithPriority,
    ControlTree.new, CTreeNode.id, LeafNode.default]

/-- C4, amended: whenever `add_child_with_priority` returns a value (so
the unchecked `Vec::insert` did not panic on a preset id beyond the arena
and the cycle check terminated): on success the new id sits in the
parent's list at index min(pri, previous sibling count) and is returned;
on a detected cycle the error is a `CycleDetected`, the new id's entry is
gone and every other entry equals the pre-call entry with the new id
filtered out — which restores the map only when the new id occurred
nowhere before the call. -/
theorem claim_C4_amended (fuel : Nat) (t : ControlTree) (parentId : Nat)
    (child : CTreeNode) (priority : Nat) (r : ControlTree × Except ShrubberyError Nat)
    (hr : ControlTree.addChildWithPriority fuel t parentId child priority = some r) :
    match r.2 with
    | .ok j =>
        j = child.id.getD t.nodes.length ∧
        lookupL r.1.tree parentId =
          some (((lookupL t.tree parentId).getD []).insertIdx
            (min priority ((lookupL t.tree parentId).getD []).length)
            (child.id.getD t.nodes.length))
    | .error e =>
        (∃ p, e = .CycleDetected p) ∧
        lookupL r.1.tree (child.id.getD t.nodes.length) = none ∧
        ∀ k, k ≠ child.id.getD t.nodes.length →
          lookupL r.1.tree k =
            if k = parentId then
              some (((lookupL t.tree parentId).getD []).filter
                (· ≠ child.id.getD t.nodes.length))
            else (lookupL t.tree k).map (List.filter (· ≠ child.id.getD t.nodes.length)) := by
  rw [addChildWithPriority_eq] at hr
  cases hu : ControlTree.addChildUncheckedWithPriority t parentId child priority with
  | none => rw [hu] at hr; cases hr
  | some pr =>
      obtain ⟨t₁, i⟩ := pr
      obtain ⟨hi, -⟩ := unchecked_tree_eq t parentId child priority t₁ i hu
      subst hi
      cases hc : ControlTree.recurseCheckCycles fuel t₁ parentId [] with
      | none =>
          simp only [hu, hc] at hr
          exact Option.noConfusion hr
      | some res =>
          cases res with
          | ok u =>
              cases u
              simp only [hu, hc] at hr
              obtain rfl := Option.some.inj hr
              exact ⟨rfl, unchecked_parent_lookup t parentId child priority t₁ _ hu⟩
          | error e =>
              simp only [hu, hc] at hr
              obtain rfl := Option.some.inj hr
              refine ⟨recurseCheckCycles_error fuel _ parentId [] e hc, ?_, ?_⟩
              · show lookupL (ControlTree.removeId _ _).tree _ = none
                unfold ControlTree.removeId
                rw [lookupL_removeKeyL]
                simp
              · intro k hk
                show lookupL (ControlTree.removeId _ _).tree k = _
                unfold ControlTree.removeId
                rw [lookupL_removeKeyL, if_neg hk, lookupL_stripValL]
                by_cases hkp : k = parentId
                · subst hkp
                  rw [unchecked_parent_lookup t _ child priority t₁ _ hu, if_pos rfl,
                    Option.map_some', filter_insertIdx _ _ _ _ (by simp)]
                · rw [unchecked_other_lookup t parentId child priority t₁ _ hu k hkp hk,
                    if_neg hkp]

/-- C4 counterexample input evaluation: on `treeC4` (which `build`
accepts), re-attaching a node that carries the preexisting id 1 beneath
node 2 creates a cycle; the call returns CycleDetected [2,1,2] but the
root's child list has become [] (it was [1]) and entry 1 is gone — the
adjacency map is NOT as it was before the call. -/
theorem claim_C4_counterexample :
    ControlTree.validateBtRules 10 treeC4 = some (.ok ())
      ∧ (ControlTree.addChildWithPriority 10 treeC4 2
          (.Control { ControlNode.sequence with id := some 1 }) 0).map
            (fun r => (lookupL r.1.tree 0, lookupL r.1.tree 1, r.2)) =
          some (some [], none, .error (.CycleDetected [2, 1, 2]))
      ∧ lookupL treeC4.tree 0 = some [1] ∧ lookupL treeC4.tree 1 = some [2] := by
  refine ⟨?_, ?_, rfl, rfl⟩
  · simp [ControlTree.validateBtRules, ControlTree.checkForCycles,
      ControlTree.cyclesScan, ControlTree.cyclesScanChildren, ControlTree.recurseCheckCycles,
      ControlTree.seqChecks, ControlTree.validateDecorators, ControlTree.decoratorsScan,
      ControlTree.checkForDanglingControl, ControlTree.danglingScan, ControlTree.children,
      lookupL, CTreeNode.tryAsControl, ControlNode.isDecorator, ControlNode.sequence,
      CTreeNode.root, treeC4]
  · simp [ControlTree.addChildWithPriority, ControlTree.addChildUncheckedWithPriority,
      ControlTree.recurseCheckCycles, ControlTree.seqChecks, ControlTree.children,
      ControlTree.removeId, removeKeyL, stripValL, entryOr, containsKeyL, setL, lookupL,
      CTreeNode.setId, CTreeNode.id, ControlNode.sequence, treeC4]

/-- Witness for the amended C4 at a success input: adding a fresh leaf
under the root of a fresh tree with priority 5 returns Ok 1 and puts id 1
at index min(5, 0) = 0 of the root's list. -/
theorem claim_C4_witness :
    (1 : Nat) = (CTreeNode.Leaf LeafNode.default).id.getD ControlTree.new.nodes.length
      ∧ lookupL ((⟨[CTreeNode.root, .Leaf { LeafNode.default with id := some 1 }],
            [(0, [1]), (1, [])]⟩ : ControlTree),
          (Except.ok 1 : Except ShrubberyError Nat)).1.tree 0 =
        some (((lookupL ControlTree.new.tree 0).getD []).insertIdx
          (min 5 ((lookupL ControlTree.new.tree 0).getD []).length)
          ((CTreeNode.Leaf LeafNode.default).id.getD ControlTree.new.nodes.length)) :=
  claim_C4_amended 10 ControlTree.new 0 (.Leaf LeafNode.default) 5
    (⟨[CTreeNode.root, .Leaf { LeafNode.default with id := some 1 }], [(0, [1]), (1, [])]⟩,
      .ok 1)
    (by simp [ControlTree.addChildWithPriority, ControlTree.addChildUncheckedWithPriority,
      ControlTree.recurseCheckCycles, ControlTree.seqChecks, ControlTree.children,
      entryOr, containsKeyL, setL, lookupL, CTreeNode.setId, CTreeNode.id, CTreeNode.root,
      LeafNode.default, ControlTree.new])

/-! ### Claim C5, amended -/

/-- C5, amended: (1) a Failure update latches a Sequence's failed field to
the updating child; (2) while the latch is set, a child-iteration pass
over that Sequence stops at the parent-terminal tick before considering
any child: the tree changes only by that tick, the hook state comes back
untouched (no hook runs, no child is ticked or recursed into), for every
hook and every recursion function.  Children past the failing index can
therefore only run again once a reset clears the latch. -/
theorem claim_C5_amended :
    (∀ (sq : Sequence) (u : ChildUpdate), u.status = .Failure →
        (sq.childUpdated u).failed = some u.childId)
    ∧ ∀ (H : Type) (hookFn : H → LeafNode → H × Status)
        (recurse : Nat → ControlTree → H → Except EngineStop (ControlTree × H × Status))
        (t : ControlTree) (pid : Nat) (cn : ControlNode) (sq : Sequence) (x : Nat)
        (c : Nat) (cs : List Nat) (h : H),
        ControlTree.nodeAt t pid = some (.Control cn) →
        cn.nodeType = .Sequence sq →
        sq.failed = some x →
        ∃ t', ControlTree.tickAt t pid = some (t', .Failure)
          ∧ runChildrenF hookFn recurse t pid (c :: cs) h = .ok (t', h) := by
  constructor
  · intro sq u hu
    cases u with
    | mk us ui => cases us <;> simp_all [Sequence.childUpdated]
  · intro H hookFn recurse t pid cn sq x c cs h h1 h2 h3
    have hseq : sq.tick = ({ sq with status := some .Failure }, .Failure) := by
      unfold Sequence.tick
      simp [h3]
    have htick : ControlTree.tickAt t pid =
        some (t.setNodeAt pid ((CTreeNode.tick (.Control cn)).1),
          (CTreeNode.tick (.Control cn)).2) := by
      unfold ControlTree.tickAt
      rw [h1]
      rfl
    have hst : (CTreeNode.tick (CTreeNode.Control cn)).2 = .Failure := by
      show (ControlNode.tick cn).2 = .Failure
      unfold ControlNode.tick
      by_cases hs : cn.status = none <;> simp [hs, h2, hseq]
    rw [hst] at htick
    refine ⟨t.setNodeAt pid ((CTreeNode.tick (.Control cn)).1), htick, ?_⟩
    rw [runChildrenF, htick]
    simp [Status.isTerminal, Status.isFailure]

/-- Witness for the amended C5: a concrete one-node tree whose node 0 is
a Sequence latched on child 4; the pass over children [9, 5] returns at
once with the hook state (0) unchanged. -/
theorem claim_C5_witness :
    ∃ t', ControlTree.tickAt
          ⟨[CTreeNode.Control ⟨ControlNodeType.Sequence ⟨[], some 4, none, false⟩,
              some .Running, some 0, []⟩], [(0, [9, 5])]⟩ 0 =
        some (t', .Failure)
      ∧ runChildrenF hookCountFail (fun _ _ _ => .error .fuelOut)
          ⟨[CTreeNode.Control ⟨ControlNodeType.Sequence ⟨[], some 4, none, false⟩,
              some .Running, some 0, []⟩], [(0, [9, 5])]⟩
          0 [9, 5] 0 = .ok (t', 0) :=
  claim_C5_amended.2 Nat hookCountFail (fun _ _ _ => .error .fuelOut) _ 0
    ⟨ControlNodeType.Sequence ⟨[], some 4, none, false⟩, some .Running, some 0, []⟩
    ⟨[], some 4, none, false⟩ 4 9 [5] 0 rfl rfl rfl

/-! ### Claim C1, amended -/

lemma c1_loop (k : Nat) :
    ∀ (j m count : Nat) (rootN : CTreeNode) (rr : Option Nat) (rs : Option Status)
      (recurse : Nat → ControlTree → Nat → Except EngineStop (ControlTree × Nat × Status)),
      rs = none ∨ rs = some .Running →
      runLoopF hookCountFail recurse (k + (j + 2)) (treeC1Mid rootN m (k + 1) rs rr none) 1
          count .Running = .ok (treeC1Done rootN m, count + (k + 2), .Failure) := by
  induction k with
  | zero =>
      intro j m count rootN rr rs recurse hrs
      rw [show (0 : Nat) + (j + 2) = (j + 1) + 1 from by omega]
      rcases hrs with rfl | rfl <;>
      · rw [runLoopF]
        simp [treeC1Mid, treeC1Done, runChildrenF, ControlTree.tickAt, ControlTree.childUpdatedAt,
          ControlTree.allChildrenSeenAt, ControlTree.handleResetRequests, ControlTree.resetEach,
          ControlTree.resetBranch, ControlTree.nodeAt, ControlTree.setNodeAt,
          ControlTree.children, lookupL, hookCountFail, LeafNode.default,
          CTreeNode.tick, CTreeNode.childUpdated, CTreeNode.allChildrenSeen, CTreeNode.setStatus,
          CTreeNode.status, CTreeNode.reset, CTreeNode.clearStatus,
          ControlNode.tick, ControlNode.childUpdated, ControlNode.allChildrenSeen,
          ControlNode.reset,
          StandardDecorator.childUpdated, StandardDecorator.statusD,
          StandardDecorator.takeResetRequest, StandardDecorator.reset,
          Repeater.childUpdated, Repeater.statusD, Repeater.takeResetRequest, Repeater.reset,
          LeafNode.tick, LeafNode.reset,
          Status.isRunning, Status.isTerminal, Status.isSuccess, Status.isFailure,
          Repeater.canRetry, List.get?, List.set]
        rw [runLoopF]
        simp [treeC1Mid, treeC1Done, runChildrenF, ControlTree.tickAt, ControlTree.childUpdatedAt,
          ControlTree.allChildrenSeenAt, ControlTree.handleResetRequests, ControlTree.resetEach,
          ControlTree.resetBranch, ControlTree.nodeAt, ControlTree.setNodeAt,
          ControlTree.children, lookupL, hookCountFail, LeafNode.default,
          CTreeNode.tick, CTreeNode.childUpdated, CTreeNode.allChildrenSeen, CTreeNode.setStatus,
          CTreeNode.status, CTreeNode.reset, CTreeNode.clearStatus,
          ControlNode.tick, ControlNode.childUpdated, ControlNode.allChildrenSeen,
          ControlNode.reset,
          StandardDecorator.childUpdated, StandardDecorator.statusD,
          StandardDecorator.takeResetRequest, StandardDecorator.reset,
          Repeater.childUpdated, Repeater.statusD, Repeater.takeResetRequest, Repeater.reset,
          LeafNode.tick, LeafNode.reset,
          Status.isRunning, Status.isTerminal, Status.isSuccess, Status.isFailure,
          Repeater.canRetry, List.get?, List.set]
        rw [runLoopF.eq_def]
        have harith0 : count + 1 + 1 = count + 2 := by omega
        simp [Status.isRunning, harith0]
  | succ k ih =>
      intro j m count rootN rr rs recurse hrs
      have hfe : k + 1 + (j + 2) = k + (j + 2) + 1 := by omega
      have hcrT : ∀ (n : Nat) (rs' : Option Status) (rr' : Option Nat),
          Repeater.canRetry ⟨m, n + 1, rs', rr'⟩ = true := by
        intro n rs' rr'
        simp [Repeater.canRetry]
      have hstep : runLoopF hookCountFail recurse (k + 1 + (j + 2))
          (treeC1Mid rootN m (k + 1 + 1) rs rr none) 1 count .Running =
          runLoopF hookCountFail recurse (k + (j + 2))
            (treeC1Mid rootN m (k + 1) (some .Running) none none) 1 (count + 1) .Running := by
        rw [hfe]
        rcases hrs with rfl | rfl <;>
        · rw [runLoopF]
          simp [treeC1Mid, treeC1Done, runChildrenF, ControlTree.tickAt, ControlTree.childUpdatedAt,
          ControlTree.allChildrenSeenAt, ControlTree.handleResetRequests, ControlTree.resetEach,
          ControlTree.resetBranch, ControlTree.nodeAt, ControlTree.setNodeAt,
          ControlTree.children, lookupL, hookCountFail, LeafNode.default,
          CTreeNode.tick, CTreeNode.childUpdated, CTreeNode.allChildrenSeen, CTreeNode.setStatus,
          CTreeNode.status, CTreeNode.reset, CTreeNode.clearStatus,
          ControlNode.tick, ControlNode.childUpdated, ControlNode.allChildrenSeen,
          ControlNode.reset,
          StandardDecorator.childUpdated, StandardDecorator.statusD,
          StandardDecorator.takeResetRequest, StandardDecorator.reset,
          Repeater.childUpdated, Repeater.statusD, Repeater.takeResetRequest, Repeater.reset,
          LeafNode.tick, LeafNode.reset,
          Status.isRunning, Status.isTerminal, Status.isSuccess, Status.isFailure,
            hcrT, List.get?, List.set, Nat.add_sub_cancel]
      rw [hstep, ih j m (count + 1) rootN none (some .Running) recurse (Or.inr rfl)]
      have harith : count + 1 + (k + 2) = count + (k + 1 + 2) := by omega
      rw [harith]

lemma runLoopF_not_running {H : Type} (hookFn : H → LeafNode → H × Status)
    (recurse : Nat → ControlTree → H → Except EngineStop (ControlTree × H × Status))
    (fuel : Nat) (t : ControlTree) (nodeId : Nat) (h : H) (st : Status)
    (hst : st.isRunning = false) :
    runLoopF hookFn recurse fuel t nodeId h st = .ok (t, h, st) := by
  rw [runLoopF.eq_def]
  simp [hst]

lemma runBT_not_running {H : Type} (hookFn : H → LeafNode → H × Status)
    (fuel : Nat) (t : ControlTree) (h : H) (st : Status)
    (hT : t.statusT = some st) (hst : st.isRunning = false) :
    runBT hookFn fuel t h = .ok (t, h, st) := by
  cases fuel with
  | zero => rw [runBT]; simp [hT, hst]
  | succ f => rw [runBT]; simp [hT, hst]

/-- C1, amended: for every N (and any surplus fuel j), running the tree
Root → Repeater(N) → always-failing leaf invokes the leaf's hook exactly
N + 2 times and the run terminates with status Failure. -/
theorem claim_C1_amended (N j : Nat) :
    (runBT hookCountFail (N + j + 5) (treeC1 N) 0).map (fun r => (r.2.1, r.2.2)) =
      .ok (N + 2, .Failure) := by
  have hloop : ∀ recurse, runLoopF hookCountFail recurse (N + j + 3)
      (treeC1Mid
        (CTreeNode.Root ⟨.Sequence ⟨[], none, some .Running, false⟩, some .Running, none, []⟩)
        (N + 1) (N + 1) none none none) 1 0 .Running =
      .ok (treeC1Done
        (CTreeNode.Root ⟨.Sequence ⟨[], none, some .Running, false⟩, some .Running, none, []⟩)
        (N + 1), N + 2, .Failure) := by
    intro recurse
    have hl := c1_loop N (j + 1) (N + 1) 0
        (CTreeNode.Root ⟨.Sequence ⟨[], none, some .Running, false⟩, some .Running, none, []⟩)
        none none recurse (Or.inl rfl)
    rw [show N + (j + 1 + 2) = N + j + 3 from by omega] at hl
    simpa using hl
  simp only [treeC1Mid, treeC1Done, LeafNode.default] at hloop
  rw [show N + j + 5 = N + j + 4 + 1 from by omega, runBT, runFrom]
  simp [treeC1, runChildrenF, ControlTree.tickAt, ControlTree.childUpdatedAt,
    ControlTree.allChildrenSeenAt, ControlTree.handleResetRequests, ControlTree.resetEach,
    ControlTree.resetBranch, ControlTree.nodeAt, ControlTree.setNodeAt,
    ControlTree.children, ControlTree.statusT, ControlTree.ROOT_ID, lookupL, hookCountFail,
    CTreeNode.tick, CTreeNode.childUpdated, CTreeNode.allChildrenSeen, CTreeNode.setStatus,
    CTreeNode.status, CTreeNode.reset, CTreeNode.clearStatus, CTreeNode.root,
    ControlNode.tick, ControlNode.childUpdated, ControlNode.allChildrenSeen, ControlNode.reset,
    ControlNode.sequence, ControlNode.repeater, ControlNode.decorator,
    Sequence.tick, Sequence.childUpdated, Sequence.allChildrenSeen, Sequence.new, Sequence.reset,
    StandardDecorator.childUpdated, StandardDecorator.statusD, StandardDecorator.takeResetRequest,
    StandardDecorator.reset,
    Repeater.childUpdated, Repeater.statusD, Repeater.takeResetRequest, Repeater.reset,
    Repeater.canRetry, Repeater.new, LeafNode.tick, LeafNode.reset, LeafNode.default,
    Status.isRunning, Status.isTerminal, Status.isSuccess, Status.isFailure, Except.map]
  rw [show N + j + 4 = N + j + 3 + 1 from by omega]
  rw [runLoopF.eq_def]
  simp [runFrom, hloop, runLoopF_not_running, runBT_not_running, runChildrenF, ControlTree.tickAt, ControlTree.childUpdatedAt,
    ControlTree.allChildrenSeenAt, ControlTree.handleResetRequests, ControlTree.resetEach,
    ControlTree.resetBranch, ControlTree.nodeAt, ControlTree.setNodeAt,
    ControlTree.children, ControlTree.statusT, ControlTree.ROOT_ID, lookupL, hookCountFail,
    CTreeNode.tick, CTreeNode.childUpdated, CTreeNode.allChildrenSeen, CTreeNode.setStatus,
    CTreeNode.status, CTreeNode.reset, CTreeNode.clearStatus, CTreeNode.root,
    ControlNode.tick, ControlNode.childUpdated, ControlNode.allChildrenSeen, ControlNode.reset,
    ControlNode.sequence, ControlNode.repeater, ControlNode.decorator,
    Sequence.tick, Sequence.childUpdated, Sequence.allChildrenSeen, Sequence.new, Sequence.reset,
    StandardDecorator.childUpdated, StandardDecorator.statusD, StandardDecorator.takeResetRequest,
    StandardDecorator.reset,
    Repeater.childUpdated, Repeater.statusD, Repeater.takeResetRequest, Repeater.reset,
    Repeater.canRetry, Repeater.new, LeafNode.tick, LeafNode.reset, LeafNode.default,
    Status.isRunning, Status.isTerminal, Status.isSuccess, Status.isFailure, Except.map]

/-! ### Claim C9, amended: the engine never delivers updates to leaves -/

lemma isLeaf_tick (n : CTreeNode) : (n.tick).1.isLeaf = n.isLeaf := by
  cases n <;> rfl

lemma isLeaf_reset (n : CTreeNode) : n.reset.isLeaf = n.isLeaf := by
  cases n <;> rfl

lemma isLeaf_allChildrenSeen (n : CTreeNode) : n.allChildrenSeen.isLeaf = n.isLeaf := by
  cases n <;> rfl

lemma isLeaf_setStatus (n : CTreeNode) (st : Status) : (n.setStatus st).isLeaf = n.isLeaf := by
  cases n <;> rfl

lemma isLeaf_childUpdated (n n' : CTreeNode) (u : ChildUpdate)
    (h : n.childUpdated u = some n') : n'.isLeaf = n.isLeaf := by
  cases n with
  | Root r => cases Option.some.inj h; rfl
  | Control c => cases Option.some.inj h; rfl
  | Leaf l => cases h

lemma sameLeafKinds_refl (t : ControlTree) : sameLeafKinds t t := fun _ => rfl

lemma sameLeafKinds_trans {a b c : ControlTree} (h1 : sameLeafKinds a b)
    (h2 : sameLeafKinds b c) : sameLeafKinds a c := fun i => (h2 i).trans (h1 i)

lemma notLeafAt_of_same {t t' : ControlTree} (hk : sameLeafKinds t t') {i : Nat}
    (h : notLeafAt t i) : notLeafAt t' i := by
  intro n hn
  have hki := hk i
  unfold leafKindAt at hki
  rw [hn] at hki
  cases hg : t.nodeAt i with
  | none => rw [hg] at hki; cases hki
  | some n₀ =>
      rw [hg] at hki
      simp only [Option.map_some'] at hki
      rw [Option.some.inj hki]
      exact h n₀ hg

lemma sameLeafKinds_setNodeAt (t : ControlTree) (i : Nat) (n : CTreeNode)
    (hn : ∀ n₀, t.nodeAt i = some n₀ → n.isLeaf = n₀.isLeaf) :
    sameLeafKinds t (t.setNodeAt i n) := by
  intro j
  show (ControlTree.nodeAt _ j).map _ = (t.nodeAt j).map _
  unfold ControlTree.nodeAt ControlTree.setNodeAt
  by_cases hij : i = j
  · subst hij
    rw [List.get?_set_eq]
    cases hg : t.nodes.get? i with
    | none => simp [hg]
    | some n₀ => simp [hg, hn n₀ hg]
  · simp only
    rw [List.get?_set_ne n t.nodes hij]

lemma tickAt_same {t : ControlTree} {i : Nat} {t' : ControlTree} {st : Status}
    (h : t.tickAt i = some (t', st)) : sameLeafKinds t t' := by
  unfold ControlTree.tickAt at h
  cases hg : t.nodeAt i with
  | none => rw [hg] at h; cases h
  | some n =>
      rw [hg] at h
      simp only [Option.map_some', Option.some.injEq, Prod.mk.injEq] at h
      obtain ⟨h1, _⟩ := h
      rw [← h1]
      exact sameLeafKinds_setNodeAt t i _ (fun n₀ hg' => by
        rw [hg] at hg'
        rw [← Option.some.inj hg']
        exact isLeaf_tick n)

lemma allChildrenSeenAt_same {t : ControlTree} {i : Nat} {t' : ControlTree}
    (h : t.allChildrenSeenAt i = some t') : sameLeafKinds t t' := by
  unfold ControlTree.allChildrenSeenAt at h
  cases hg : t.nodeAt i with
  | none => rw [hg] at h; cases h
  | some n =>
      rw [hg] at h
      simp only [Option.map_some', Option.some.injEq] at h
      rw [← h]
      exact sameLeafKinds_setNodeAt t i _ (fun n₀ hg' => by
        rw [hg] at hg'
        rw [← Option.some.inj hg']
        exact isLeaf_allChildrenSeen n)

lemma childUpdatedAt_ok_same {t : ControlTree} {i : Nat} {u : ChildUpdate} {t' : ControlTree}
    (h : t.childUpdatedAt i u = .ok t') : sameLeafKinds t t' := by
  cases hg : t.nodeAt i with
  | none =>
      simp only [ControlTree.childUpdatedAt, hg] at h
      exact Except.noConfusion h
  | some n =>
      simp only [ControlTree.childUpdatedAt, hg] at h
      cases hcu : n.childUpdated u with
      | none =>
          simp only [hcu] at h
          exact Except.noConfusion h
      | some n' =>
          simp only [hcu, Except.ok.injEq] at h
          subst h
          exact sameLeafKinds_setNodeAt t i n' (fun n₀ hg' => by
            rw [hg] at hg'
            rw [← Option.some.inj hg']
            exact isLeaf_childUpdated n n' u hcu)

lemma childUpdatedAt_no_leafPanic {t : ControlTree} {i : Nat} {u : ChildUpdate}
    (hn : notLeafAt t i) : t.childUpdatedAt i u ≠ .error .leafUpdatePanic := by
  unfold ControlTree.childUpdatedAt
  cases hg : t.nodeAt i with
  | none => simp
  | some n =>
      cases n with
      | Leaf l => simpa [CTreeNode.isLeaf] using hn _ hg
      | Root r => simp [CTreeNode.childUpdated]
      | Control c => simp [CTreeNode.childUpdated]

lemma resetBranch_safe : ∀ (fuel : Nat) (stack : List Nat) (t : ControlTree),
    ControlTree.resetBranch fuel t stack ≠ .error .leafUpdatePanic
      ∧ ∀ t', ControlTree.resetBranch fuel t stack = .ok t' → sameLeafKinds t t' := by
  intro fuel
  induction fuel with
  | zero =>
      intro stack t
      cases stack with
      | nil =>
          refine ⟨by simp [ControlTree.resetBranch], ?_⟩
          intro t' h
          obtain rfl := Except.ok.inj h
          exact sameLeafKinds_refl t
      | cons i stack => exact ⟨by simp [ControlTree.resetBranch], by intro t' h; cases h⟩
  | succ fuel ih =>
      intro stack t
      cases stack with
      | nil =>
          refine ⟨by simp [ControlTree.resetBranch], ?_⟩
          intro t' h
          obtain rfl := Except.ok.inj h
          exact sameLeafKinds_refl t
      | cons i stack =>
          have hred : ControlTree.resetBranch (fuel + 1) t (i :: stack) =
              match t.nodeAt i with
              | none => .error .panicked
              | some n =>
                  match (t.setNodeAt i n.reset).children i with
                  | none => .error .panicked
                  | some cs =>
                      ControlTree.resetBranch fuel (t.setNodeAt i n.reset)
                        (cs.reverse ++ stack) := rfl
          rw [hred]
          cases hg : t.nodeAt i with
          | none => exact ⟨by simp, by intro t' h; simp at h⟩
          | some n =>
              have hset : sameLeafKinds t (t.setNodeAt i n.reset) :=
                sameLeafKinds_setNodeAt t i n.reset (fun n₀ hg' => by
                  rw [hg] at hg'
                  rw [← Option.some.inj hg']
                  exact isLeaf_reset n)
              cases hc : (t.setNodeAt i n.reset).children i with
              | none =>
                  refine ⟨by simp [hc], ?_⟩
                  intro t' h
                  simp only [hc] at h
                  exact Except.noConfusion h
              | some cs =>
                  refine ⟨?_, ?_⟩
                  · intro h
                    simp only [hc] at h
                    exact (ih (cs.reverse ++ stack) (t.setNodeAt i n.reset)).1 h
                  · intro t' h
                    simp only [hc] at h
                    exact sameLeafKinds_trans hset
                      ((ih (cs.reverse ++ stack) (t.setNodeAt i n.reset)).2 t' h)

lemma resetEach_safe (fuel : Nat) : ∀ (rs : List Nat) (t : ControlTree),
    ControlTree.resetEach fuel rs t ≠ .error .leafUpdatePanic
      ∧ ∀ t', ControlTree.resetEach fuel rs t = .ok t' → sameLeafKinds t t' := by
  intro rs
  induction rs with
  | nil =>
      intro t
      refine ⟨by simp [ControlTree.resetEach], ?_⟩
      intro t' h
      obtain rfl := Except.ok.inj h
      exact sameLeafKinds_refl t
  | cons r rs ih =>
      intro t
      rw [ControlTree.resetEach]
      cases hb : ControlTree.resetBranch fuel t [r] with
      | error e =>
          refine ⟨?_, by intro t' h; cases h⟩
          intro h
          obtain rfl := Except.error.inj h
          exact (resetBranch_safe fuel [r] t).1 hb
      | ok t₁ =>
          refine ⟨(ih t₁).1, ?_⟩
          intro t' h
          exact sameLeafKinds_trans ((resetBranch_safe fuel [r] t).2 t₁ hb) ((ih t₁).2 t' h)

lemma handleResetRequests_safe (fuel : Nat) (t : ControlTree) (i : Nat) :
    ControlTree.handleResetRequests fuel t i ≠ .error .leafUpdatePanic
      ∧ ∀ t', ControlTree.handleResetRequests fuel t i = .ok t' → sameLeafKinds t t' := by
  unfold ControlTree.handleResetRequests
  cases hg : t.nodeAt i with
  | none => exact ⟨by simp, by intro t' h; cases h⟩
  | some n =>
      cases n with
      | Control c =>
          have hset : sameLeafKinds t
              (t.setNodeAt i (.Control { c with resetRequests := [] })) :=
            sameLeafKinds_setNodeAt t i _ (fun n₀ hg' => by
              rw [hg] at hg'
              rw [← Option.some.inj hg']
              rfl)
          refine ⟨(resetEach_safe fuel c.resetRequests _).1, ?_⟩
          intro t' h
          exact sameLeafKinds_trans hset ((resetEach_safe fuel c.resetRequests _).2 t' h)
      | Root r =>
          refine ⟨by simp, ?_⟩
          intro t' h
          obtain rfl := Except.ok.inj h
          exact sameLeafKinds_refl t
      | Leaf l =>
          refine ⟨by simp, ?_⟩
          intro t' h
          obtain rfl := Except.ok.inj h
          exact sameLeafKinds_refl t

lemma nodeAt_setNodeAt_self (t : ControlTree) (i : Nat) (m n : CTreeNode)
    (h : t.nodeAt i = some m) : (t.setNodeAt i n).nodeAt i = some n := by
  show (t.nodes.set i n).get? i = some n
  rw [List.get?_set_eq]
  show (fun _ => n) <$> t.nodes.get? i = some n
  rw [show t.nodes.get? i = some m from h]
  rfl

/-- The children pass neither delivers an update to a Leaf (given the
parent is not a Leaf and the recursion has the same property) nor changes
any slot's node kind. -/
lemma runChildrenF_safe {H : Type} (hookFn : H → LeafNode → H × Status)
    (recurse : Nat → ControlTree → H → Except EngineStop (ControlTree × H × Status))
    (hrec : ∀ c t h, notLeafAt t c →
      recurse c t h ≠ .error .leafUpdatePanic ∧
      ∀ t' h' st, recurse c t h = .ok (t', h', st) → sameLeafKinds t t') :
    ∀ (cs : List Nat) (t : ControlTree) (pid : Nat) (h : H), notLeafAt t pid →
      runChildrenF hookFn recurse t pid cs h ≠ .error .leafUpdatePanic ∧
      ∀ t' h', runChildrenF hookFn recurse t pid cs h = .ok (t', h') → sameLeafKinds t t' := by
  intro cs
  induction cs with
  | nil =>
      intro t pid h hp
      refine ⟨by rw [runChildrenF]; simp, ?_⟩
      intro t' h' hh
      rw [runChildrenF] at hh
      simp only [Except.ok.injEq, Prod.mk.injEq] at hh
      obtain ⟨rfl, -⟩ := hh
      exact sameLeafKinds_refl _
  | cons c cs ih =>
      intro t pid h hp
      rw [runChildrenF]
      cases htk : t.tickAt pid with
      | none =>
          refine ⟨by simp [htk], ?_⟩
          intro t' h' hh
          simp only [htk] at hh
          exact Except.noConfusion hh
      | some pr =>
          obtain ⟨t₁, pst⟩ := pr
          have hk1 : sameLeafKinds t t₁ := tickAt_same htk
          have hp1 : notLeafAt t₁ pid := notLeafAt_of_same hk1 hp
          simp only [htk]
          by_cases hterm : pst.isTerminal = true
          · rw [if_pos hterm]
            refine ⟨by simp, ?_⟩
            intro t' h' hh
            simp only [Except.ok.injEq, Prod.mk.injEq] at hh
            obtain ⟨rfl, -⟩ := hh
            exact hk1
          · rw [if_neg hterm]
            cases hnc : t₁.nodeAt c with
            | none =>
                refine ⟨by simp, ?_⟩
                intro t' h' hh
                exact Except.noConfusion hh
            | some n =>
                simp only [hnc]
                by_cases hsucc : (n.status.getD .Running).isSuccess = true
                · rw [if_pos hsucc]
                  refine ⟨(ih t₁ pid h hp1).1, ?_⟩
                  intro t' h' hh
                  exact sameLeafKinds_trans hk1 ((ih t₁ pid h hp1).2 t' h' hh)
                · rw [if_neg hsucc]
                  cases n with
                  | Leaf leaf =>
                      rcases hpr : hookFn h leaf with ⟨h₂, st₂⟩
                      simp only [hpr]
                      have hk2 : sameLeafKinds t₁
                          (t₁.setNodeAt c ((CTreeNode.Leaf leaf).setStatus st₂)) :=
                        sameLeafKinds_setNodeAt t₁ c _ (fun n₀ hg' => by
                          rw [hnc] at hg'
                          rw [← Option.some.inj hg']
                          exact isLeaf_setStatus _ _)
                      have hp2 : notLeafAt
                          (t₁.setNodeAt c ((CTreeNode.Leaf leaf).setStatus st₂)) pid :=
                        notLeafAt_of_same hk2 hp1
                      cases hcu : (t₁.setNodeAt c ((CTreeNode.Leaf leaf).setStatus st₂)).childUpdatedAt
                          pid ⟨st₂, c⟩ with
                      | error e =>
                          refine ⟨?_, ?_⟩
                          · intro hh
                            simp only [hcu] at hh
                            obtain rfl := Except.error.inj hh
                            exact childUpdatedAt_no_leafPanic hp2 hcu
                          · intro t' h' hh
                            simp only [hcu] at hh
                            exact Except.noConfusion hh
                      | ok t₃ =>
                          have hk3 : sameLeafKinds
                              (t₁.setNodeAt c ((CTreeNode.Leaf leaf).setStatus st₂)) t₃ :=
                            childUpdatedAt_ok_same hcu
                          have hp3 : notLeafAt t₃ pid := notLeafAt_of_same hk3 hp2
                          refine ⟨?_, ?_⟩
                          · intro hh
                            simp only [hcu] at hh
                            exact (ih t₃ pid h₂ hp3).1 hh
                          · intro t' h' hh
                            simp only [hcu] at hh
                            exact sameLeafKinds_trans hk1 (sameLeafKinds_trans hk2
                              (sameLeafKinds_trans hk3 ((ih t₃ pid h₂ hp3).2 t' h' hh)))
                  | Root r =>
                      have hnl : (CTreeNode.Root r).isLeaf = false := rfl
                      try simp only []
                      generalize hn : CTreeNode.Root r = n at hnc hnl ⊢
                      rcases htc : n.tick with ⟨n', st'⟩
                      simp only [htc]
                      have hkn' : n'.isLeaf = n.isLeaf := by
                        have := isLeaf_tick n
                        rw [htc] at this
                        exact this
                      have hk2 : sameLeafKinds t₁ (t₁.setNodeAt c n') :=
                        sameLeafKinds_setNodeAt t₁ c n' (fun n₀ hg' => by
                          rw [hnc] at hg'
                          rw [← Option.some.inj hg', hkn'])
                      have hp2 : notLeafAt (t₁.setNodeAt c n') pid := notLeafAt_of_same hk2 hp1
                      have hnotc : notLeafAt (t₁.setNodeAt c n') c := by
                        intro m hm
                        rw [nodeAt_setNodeAt_self t₁ c n n' hnc] at hm
                        rw [← Option.some.inj hm, hkn', hnl]
                      have hrest : ∀ (t₃ : ControlTree) (h₃ : H) (sub : Status),
                          sameLeafKinds (t₁.setNodeAt c n') t₃ → notLeafAt t₃ pid →
                          (match t₃.childUpdatedAt pid ⟨sub, c⟩ with
                            | .error e => Except.error e
                            | .ok t₄ => runChildrenF hookFn recurse t₄ pid cs h₃)
                              ≠ Except.error EngineStop.leafUpdatePanic
                          ∧ ∀ t' h', (match t₃.childUpdatedAt pid ⟨sub, c⟩ with
                            | .error e => Except.error e
                            | .ok t₄ => runChildrenF hookFn recurse t₄ pid cs h₃) = .ok (t', h') →
                              sameLeafKinds t₃ t' := by
                        intro t₃ h₃ sub hk3 hp3
                        cases hcu : t₃.childUpdatedAt pid ⟨sub, c⟩ with
                        | error e =>
                            refine ⟨?_, ?_⟩
                            · intro hh
                              simp only [hcu] at hh
                              obtain rfl := Except.error.inj hh
                              exact childUpdatedAt_no_leafPanic hp3 hcu
                            · intro t' h' hh
                              simp only [hcu] at hh
                              exact Except.noConfusion hh
                        | ok t₄ =>
                            have hk4 : sameLeafKinds t₃ t₄ := childUpdatedAt_ok_same hcu
                            have hp4 : notLeafAt t₄ pid := notLeafAt_of_same hk4 hp3
                            refine ⟨?_, ?_⟩
                            · intro hh
                              simp only [hcu] at hh
                              exact (ih t₄ pid h₃ hp4).1 hh
                            · intro t' h' hh
                              simp only [hcu] at hh
                              exact sameLeafKinds_trans hk4 ((ih t₄ pid h₃ hp4).2 t' h' hh)
                      by_cases hrun : st'.isRunning = true
                      · rw [if_pos hrun]
                        cases hr : recurse c (t₁.setNodeAt c n') h with
                        | error e =>
                            refine ⟨?_, ?_⟩
                            · intro hh
                              simp only [hr] at hh
                              obtain rfl := Except.error.inj hh
                              exact (hrec c (t₁.setNodeAt c n') h hnotc).1 hr
                            · intro t' h' hh
                              simp only [hr] at hh
                              exact Except.noConfusion hh
                        | ok trip =>
                            obtain ⟨t₃, h₃, sub⟩ := trip
                            have hk3 : sameLeafKinds (t₁.setNodeAt c n') t₃ :=
                              (hrec c (t₁.setNodeAt c n') h hnotc).2 t₃ h₃ sub hr
                            have hp3 : notLeafAt t₃ pid := notLeafAt_of_same hk3 hp2
                            refine ⟨?_, ?_⟩
                            · intro hh
                              simp only [hr] at hh
                              exact (hrest t₃ h₃ sub hk3 hp3).1 hh
                            · intro t' h' hh
                              simp only [hr] at hh
                              exact sameLeafKinds_trans hk1 (sameLeafKinds_trans hk2
                                (sameLeafKinds_trans hk3 ((hrest t₃ h₃ sub hk3 hp3).2 t' h' hh)))
                      · rw [if_neg hrun]
                        refine ⟨?_, ?_⟩
                        · intro hh
                          exact (hrest (t₁.setNodeAt c n') h st' (sameLeafKinds_refl _) hp2).1 hh
                        · intro t' h' hh
                          exact sameLeafKinds_trans hk1 (sameLeafKinds_trans hk2
                            ((hrest (t₁.setNodeAt c n') h st' (sameLeafKinds_refl _) hp2).2 t' h' hh))
                  | Control cn =>
                      have hnl : (CTreeNode.Control cn).isLeaf = false := rfl
                      try simp only []
                      generalize hn : CTreeNode.Control cn = n at hnc hnl ⊢
                      rcases htc : n.tick with ⟨n', st'⟩
                      simp only [htc]
                      have hkn' : n'.isLeaf = n.isLeaf := by
                        have := isLeaf_tick n
                        rw [htc] at this
                        exact this
                      have hk2 : sameLeafKinds t₁ (t₁.setNodeAt c n') :=
                        sameLeafKinds_setNodeAt t₁ c n' (fun n₀ hg' => by
                          rw [hnc] at hg'
                          rw [← Option.some.inj hg', hkn'])
                      have hp2 : notLeafAt (t₁.setNodeAt c n') pid := notLeafAt_of_same hk2 hp1
                      have hnotc : notLeafAt (t₁.setNodeAt c n') c := by
                        intro m hm
                        rw [nodeAt_setNodeAt_self t₁ c n n' hnc] at hm
                        rw [← Option.some.inj hm, hkn', hnl]
                      have hrest : ∀ (t₃ : ControlTree) (h₃ : H) (sub : Status),
                          sameLeafKinds (t₁.setNodeAt c n') t₃ → notLeafAt t₃ pid →
                          (match t₃.childUpdatedAt pid ⟨sub, c⟩ with
                            | .error e => Except.error e
                            | .ok t₄ => runChildrenF hookFn recurse t₄ pid cs h₃)
                              ≠ Except.error EngineStop.leafUpdatePanic
                          ∧ ∀ t' h', (match t₃.childUpdatedAt pid ⟨sub, c⟩ with
                            | .error e => Except.error e
                            | .ok t₄ => runChildrenF hookFn recurse t₄ pid cs h₃) = .ok (t', h') →
                              sameLeafKinds t₃ t' := by
                        intro t₃ h₃ sub hk3 hp3
                        cases hcu : t₃.childUpdatedAt pid ⟨sub, c⟩ with
                        | error e =>
                            refine ⟨?_, ?_⟩
                            · intro hh
                              simp only [hcu] at hh
                              obtain rfl := Except.error.inj hh
                              exact childUpdatedAt_no_leafPanic hp3 hcu
                            · intro t' h' hh
                              simp only [hcu] at hh
                              exact Except.noConfusion hh
                        | ok t₄ =>
                            have hk4 : sameLeafKinds t₃ t₄ := childUpdatedAt_ok_same hcu
                            have hp4 : notLeafAt t₄ pid := notLeafAt_of_same hk4 hp3
                            refine ⟨?_, ?_⟩
                            · intro hh
                              simp only [hcu] at hh
                              exact (ih t₄ pid h₃ hp4).1 hh
                            · intro t' h' hh
                              simp only [hcu] at hh
                              exact sameLeafKinds_trans hk4 ((ih t₄ pid h₃ hp4).2 t' h' hh)
                      by_cases hrun : st'.isRunning = true
                      · rw [if_pos hrun]
                        cases hr : recurse c (t₁.setNodeAt c n') h with
                        | error e =>
                            refine ⟨?_, ?_⟩
                            · intro hh
                              simp only [hr] at hh
                              obtain rfl := Except.error.inj hh
                              exact (hrec c (t₁.setNodeAt c n') h hnotc).1 hr
                            · intro t' h' hh
                              simp only [hr] at hh
                              exact Except.noConfusion hh
                        | ok trip =>
                            obtain ⟨t₃, h₃, sub⟩ := trip
                            have hk3 : sameLeafKinds (t₁.setNodeAt c n') t₃ :=
                              (hrec c (t₁.setNodeAt c n') h hnotc).2 t₃ h₃ sub hr
                            have hp3 : notLeafAt t₃ pid := notLeafAt_of_same hk3 hp2
                            refine ⟨?_, ?_⟩
                            · intro hh
                              simp only [hr] at hh
                              exact (hrest t₃ h₃ sub hk3 hp3).1 hh
                            · intro t' h' hh
                              simp only [hr] at hh
                              exact sameLeafKinds_trans hk1 (sameLeafKinds_trans hk2
                                (sameLeafKinds_trans hk3 ((hrest t₃ h₃ sub hk3 hp3).2 t' h' hh)))
                      · rw [if_neg hrun]
                        refine ⟨?_, ?_⟩
                        · intro hh
                          exact (hrest (t₁.setNodeAt c n') h st' (sameLeafKinds_refl _) hp2).1 hh
                        · intro t' h' hh
                          exact sameLeafKinds_trans hk1 (sameLeafKinds_trans hk2
                            ((hrest (t₁.setNodeAt c n') h st' (sameLeafKinds_refl _) hp2).2 t' h' hh))

/-- One while-loop pass at a non-Leaf node neither panics in a Leaf's
`child_updated` nor changes any slot's node kind, given the recursion has
the same property. -/
lemma runLoopF_safe {H : Type} (hookFn : H → LeafNode → H × Status)
    (recurse : Nat → ControlTree → H → Except EngineStop (ControlTree × H × Status))
    (hrec : ∀ c t h, notLeafAt t c →
      recurse c t h ≠ .error .leafUpdatePanic ∧
      ∀ t' h' st, recurse c t h = .ok (t', h', st) → sameLeafKinds t t') :
    ∀ (fuel : Nat) (t : ControlTree) (nodeId : Nat) (h : H) (st : Status),
      notLeafAt t nodeId →
      runLoopF hookFn recurse fuel t nodeId h st ≠ .error .leafUpdatePanic ∧
      ∀ t' h' st', runLoopF hookFn recurse fuel t nodeId h st = .ok (t', h', st') →
        sameLeafKinds t t' := by
  intro fuel
  induction fuel with
  | zero =>
      intro t nodeId h st hp
      rw [runLoopF.eq_def]
      simp only []
      by_cases hr : st.isRunning = true
      · rw [if_pos hr]
        refine ⟨by simp, ?_⟩
        intro t' h' st' hh
        simp at hh
      · rw [if_neg hr]
        refine ⟨by simp, ?_⟩
        intro t' h' st' hh
        simp only [Except.ok.injEq, Prod.mk.injEq] at hh
        obtain ⟨rfl, -⟩ := hh
        exact sameLeafKinds_refl _
  | succ fuel ih =>
      intro t nodeId h st hp
      rw [runLoopF.eq_def]
      simp only []
      by_cases hr : st.isRunning = true
      · rw [if_pos hr]
        cases hcs : t.children nodeId with
        | none =>
            refine ⟨by simp [hcs], ?_⟩
            intro t' h' st' hh
            simp only [hcs] at hh
            exact Except.noConfusion hh
        | some cs =>
            have hcf := runChildrenF_safe hookFn recurse hrec cs t nodeId h hp
            cases hrc : runChildrenF hookFn recurse t nodeId cs h with
            | error e =>
                refine ⟨?_, ?_⟩
                · intro hh
                  simp only [hcs, hrc] at hh
                  obtain rfl := Except.error.inj hh
                  exact hcf.1 hrc
                · intro t' h' st' hh
                  simp only [hcs, hrc] at hh
                  exact Except.noConfusion hh
            | ok pr =>
                obtain ⟨t₁, h₁⟩ := pr
                have hk1 : sameLeafKinds t t₁ := hcf.2 t₁ h₁ hrc
                have hp1 : notLeafAt t₁ nodeId := notLeafAt_of_same hk1 hp
                cases hacs : t₁.allChildrenSeenAt nodeId with
                | none =>
                    refine ⟨by simp [hcs, hrc, hacs], ?_⟩
                    intro t' h' st' hh
                    simp only [hcs, hrc, hacs] at hh
                    exact Except.noConfusion hh
                | some t₂ =>
                    have hk2 : sameLeafKinds t₁ t₂ := allChildrenSeenAt_same hacs
                    have hp2 : notLeafAt t₂ nodeId := notLeafAt_of_same hk2 hp1
                    cases htk : t₂.tickAt nodeId with
                    | none =>
                        refine ⟨by simp [hcs, hrc, hacs, htk], ?_⟩
                        intro t' h' st' hh
                        simp only [hcs, hrc, hacs, htk] at hh
                        exact Except.noConfusion hh
                    | some pr2 =>
                        obtain ⟨t₃, st₃⟩ := pr2
                        have hk3 : sameLeafKinds t₂ t₃ := tickAt_same htk
                        have hp3 : notLeafAt t₃ nodeId := notLeafAt_of_same hk3 hp2
                        cases hhr : ControlTree.handleResetRequests (fuel + 1) t₃ nodeId with
                        | error e =>
                            refine ⟨?_, ?_⟩
                            · intro hh
                              simp only [hcs, hrc, hacs, htk, hhr] at hh
                              obtain rfl := Except.error.inj hh
                              exact (handleResetRequests_safe (fuel + 1) t₃ nodeId).1 hhr
                            · intro t' h' st' hh
                              simp only [hcs, hrc, hacs, htk, hhr] at hh
                              exact Except.noConfusion hh
                        | ok t₄ =>
                            have hk4 : sameLeafKinds t₃ t₄ :=
                              (handleResetRequests_safe (fuel + 1) t₃ nodeId).2 t₄ hhr
                            have hp4 : notLeafAt t₄ nodeId := notLeafAt_of_same hk4 hp3
                            refine ⟨?_, ?_⟩
                            · intro hh
                              simp only [hcs, hrc, hacs, htk, hhr] at hh
                              exact (ih t₄ nodeId h₁ st₃ hp4).1 hh
                            · intro t' h' st' hh
                              simp only [hcs, hrc, hacs, htk, hhr] at hh
                              exact sameLeafKinds_trans hk1 (sameLeafKinds_trans hk2
                                (sameLeafKinds_trans hk3 (sameLeafKinds_trans hk4
                                  ((ih t₄ nodeId h₁ st₃ hp4).2 t' h' st' hh))))
      · rw [if_neg hr]
        refine ⟨by simp, ?_⟩
        intro t' h' st' hh
        simp only [Except.ok.injEq, Prod.mk.injEq] at hh
        obtain ⟨rfl, -⟩ := hh
        exact sameLeafKinds_refl _

/-- `run_from` started at a non-Leaf node neither panics in a Leaf's
`child_updated` nor changes any slot's node kind. -/
lemma runFrom_safe {H : Type} (hookFn : H → LeafNode → H × Status) :
    ∀ (fuel : Nat) (t : ControlTree) (nodeId : Nat) (h : H), notLeafAt t nodeId →
      runFrom hookFn fuel t nodeId h ≠ .error .leafUpdatePanic ∧
      ∀ t' h' st', runFrom hookFn fuel t nodeId h = .ok (t', h', st') →
        sameLeafKinds t t' := by
  intro fuel
  induction fuel with
  | zero =>
      intro t nodeId h hp
      rw [runFrom]
      exact ⟨by simp, fun t' h' st' hh => Except.noConfusion hh⟩
  | succ fuel ih =>
      intro t nodeId h hp
      rw [runFrom]
      cases htk : t.tickAt nodeId with
      | none =>
          refine ⟨by simp [htk], ?_⟩
          intro t' h' st' hh
          simp only [htk] at hh
          exact Except.noConfusion hh
      | some pr =>
          obtain ⟨t₁, st₁⟩ := pr
          simp only [htk]
          have hk1 : sameLeafKinds t t₁ := tickAt_same htk
          have hp1 : notLeafAt t₁ nodeId := notLeafAt_of_same hk1 hp
          have hrec : ∀ c t h, notLeafAt t c →
              runFrom hookFn fuel t c h ≠ .error .leafUpdatePanic ∧
              ∀ t' h' st, runFrom hookFn fuel t c h = .ok (t', h', st) →
                sameLeafKinds t t' :=
            fun c t h hc => ih t c h hc
          have hL := runLoopF_safe hookFn (fun c t' h' => runFrom hookFn fuel t' c h')
            hrec fuel t₁ nodeId h st₁ hp1
          refine ⟨hL.1, ?_⟩
          intro t' h' st' hh
          exact sameLeafKinds_trans hk1 (hL.2 t' h' st' hh)

/-- `run` on a tree whose slot 0 is not a Leaf never reaches the Leaf
`child_updated` panic. -/
lemma runBT_safe {H : Type} (hookFn : H → LeafNode → H × Status) :
    ∀ (fuel : Nat) (t : ControlTree) (h : H), notLeafAt t ControlTree.ROOT_ID →
      runBT hookFn fuel t h ≠ .error .leafUpdatePanic := by
  intro fuel
  induction fuel with
  | zero =>
      intro t h hp
      rw [runBT]
      cases hst : t.statusT with
      | none => simp [hst]
      | some st =>
          simp only [hst]
          by_cases hr : st.isRunning = true
          · rw [if_pos hr]
            simp
          · rw [if_neg hr]
            simp
  | succ fuel ih =>
      intro t h hp
      rw [runBT]
      cases hst : t.statusT with
      | none => simp [hst]
      | some st =>
          simp only [hst]
          by_cases hr : st.isRunning = true
          · rw [if_pos hr]
            have hF := runFrom_safe hookFn (fuel + 1) t ControlTree.ROOT_ID h hp
            cases hrf : runFrom hookFn (fuel + 1) t ControlTree.ROOT_ID h with
            | error e =>
                intro hh
                simp only [hrf] at hh
                obtain rfl := Except.error.inj hh
                exact hF.1 hrf
            | ok trip =>
                obtain ⟨t₁, h₁, st₁⟩ := trip
                have hk1 : sameLeafKinds t t₁ := hF.2 t₁ h₁ st₁ hrf
                have hp1 : notLeafAt t₁ ControlTree.ROOT_ID := notLeafAt_of_same hk1 hp
                intro hh
                simp only [hrf] at hh
                exact ih t₁ h₁ hp1 hh
          · rw [if_neg hr]
            simp

/-- C9 (amended): for every tree accepted by `build` whose arena slot 0
(ROOT_ID) does not hold a Leaf - as in every tree produced by the public
constructors - and every hook, hook state and fuel, a run started from
the root never delivers a ChildUpdate to a Leaf node, so the
`panic!("Leaf nodes should not have children")` inside
`LeafNode::child_updated` is unreachable.  (The Root-at-slot-0 hypothesis
is genuinely needed: `build` itself never checks it, see the
counterexample.) -/
theorem claim_C9_amended {H : Type} (hookFn : H → LeafNode → H × Status)
    (vfuel fuel : Nat) (t : ControlTree) (h : H)
    (_hbuild : ControlTree.build vfuel t = some (.ok t))
    (hroot : notLeafAt t ControlTree.ROOT_ID) :
    runBT hookFn fuel t h ≠ .error .leafUpdatePanic :=
  runBT_safe hookFn fuel t h hroot

/-- Witness for the amended C9: the Root-over-one-Leaf tree passes build
and a concrete run does not hit the leaf-update panic. -/
theorem claim_C9_witness :
    ControlTree.build 50 treeC9good = some (.ok treeC9good)
      ∧ runBT (fun (n : Nat) _ => (n + 1, Status.Success)) 8 treeC9good 0
          ≠ .error .leafUpdatePanic := by
  have hb : ControlTree.build 50 treeC9good = some (.ok treeC9good) := by
    simp [ControlTree.build, ControlTree.validateBtRules, ControlTree.checkForCycles,
      ControlTree.cyclesScan, ControlTree.cyclesScanChildren, ControlTree.recurseCheckCycles,
      ControlTree.seqChecks, ControlTree.validateDecorators, ControlTree.decoratorsScan,
      ControlTree.checkForDanglingControl, ControlTree.danglingScan, ControlTree.children,
      lookupL, CTreeNode.tryAsControl, CTreeNode.root, ControlNode.sequence, treeC9good]
  refine ⟨hb, ?_⟩
  refine claim_C9_amended (fun (n : Nat) _ => (n + 1, Status.Success)) 50 8 treeC9good 0 hb ?_
  intro n hn
  rw [show treeC9good.nodeAt ControlTree.ROOT_ID = some CTreeNode.root from rfl] at hn
  obtain rfl := Option.some.inj hn
  rfl

end Shrubbery
